import Mathlib

/-!
TypeAllocator, a fixed-arena first-fit allocator (`src/src/heap.c`).

Shallow embedding of the allocator engine and theorems about it.

Conventions of the embedding.

* The buffer `heap->data` is a byte memory `Mem = Nat → Nat` indexed by the
  byte offset from the buffer start; only offsets `< heap->size` belong to the
  `malloc`ed buffer.  Every access of the C code is bounds-checked against
  that extent: an access outside it has no defined result and is reported as
  `Fault.outOfBounds` (`Fault.nullDeref` for a `NULL` buffer).
* A `HeapNode` is two little-endian 32-bit words: `type` at offset `+0`,
  `size` at offset `+4` (`sizeof(HeapNode) = 8`).
* `uint32_t` values are naturals reduced with `u32`; `size_t` and pointers
  are 64 bit wide (LP64), so byte offsets themselves never wrap.
* Pointers into the buffer are byte offsets from `heap->data`.
* Loops carry a fuel argument; `Fault.outOfFuel` is reported when it is
  exhausted.
-/

namespace TypeAllocator

/-- Reasons for which a run of the C code has no defined result. -/
inductive Fault where
  | outOfBounds
  | nullDeref
  | outOfFuel
  deriving DecidableEq

/-- Byte memory, indexed by the byte offset from `heap->data`. -/
abbrev Mem := Nat → Nat

/-- `HEAP_NODE_FREE = 0x3418972F` (heap.h). -/
def HEAP_NODE_FREE : Nat := 0x3418972F

/-- `HEAP_NODE_USED = 0x7A727D7B` (heap.h). -/
def HEAP_NODE_USED : Nat := 0x7A727D7B

/-- `#define MINIMUM_DATA_TYPE_SIZE sizeof(uint32_t)`. -/
def MINIMUM_DATA_TYPE_SIZE : Nat := 4

/-- `#define NODE_SIZE sizeof(HeapNode)`: two 32-bit fields. -/
def NODE_SIZE : Nat := 8

/-- `#define MINIMUM_DATA_SIZE NODE_SIZE + MINIMUM_DATA_TYPE_SIZE`.  The macro
has no parentheses: this value is what it denotes where it is the whole
operand of a comparison (`Heap_Init`, `Heap_Use_Node`); in `Heap_Next_Node`
it is expanded textually. -/
def MINIMUM_DATA_SIZE : Nat := NODE_SIZE + MINIMUM_DATA_TYPE_SIZE

/-- `#define DESC_LENGTH_MAX 32`. -/
def DESC_LENGTH_MAX : Nat := 32

/-- Truncation of a value to `uint32_t`. -/
def u32 (n : Nat) : Nat := n % 4294967296

/-- `#define ALIGNED_32_BIT(n) (n + 4 - 1) / 4 * 4`, evaluated in `size_t`;
the callers store the result in a `uint32_t` (see `u32`). -/
def ALIGNED_32_BIT (n : Nat) : Nat :=
  (n + MINIMUM_DATA_TYPE_SIZE - 1) / MINIMUM_DATA_TYPE_SIZE * MINIMUM_DATA_TYPE_SIZE

/-- `struct Heap`: `size`, `data` (`none` is `NULL`) and `description`. -/
structure Heap where
  size : Nat
  data : Option Mem
  description : Option (List Nat)

/-- Little-endian 32-bit word stored at byte offset `o`. -/
def read32 (m : Mem) (o : Nat) : Nat :=
  m o % 256 + 256 * (m (o + 1) % 256) + 65536 * (m (o + 2) % 256)
    + 16777216 * (m (o + 3) % 256)

/-- Store one byte. -/
def writeByte (m : Mem) (o v : Nat) : Mem := fun i => if i = o then v % 256 else m i

/-- Store a 32-bit word, little-endian, at byte offset `o`. -/
def write32 (m : Mem) (o v : Nat) : Mem :=
  writeByte (writeByte (writeByte (writeByte m o v) (o + 1) (v / 256)) (o + 2) (v / 65536))
    (o + 3) (v / 16777216)

/-- Bounds-checked 32-bit load from a buffer of `cap` bytes. -/
def load32 (cap : Nat) (m : Mem) (o : Nat) : Except Fault Nat :=
  if o + 4 ≤ cap then .ok (read32 m o) else .error .outOfBounds

/-- Bounds-checked 32-bit store into a buffer of `cap` bytes. -/
def store32 (cap : Nat) (m : Mem) (o v : Nat) : Except Fault Mem :=
  if o + 4 ≤ cap then .ok (write32 m o v) else .error .outOfBounds

/-- The loop `for (i = 0; i < n; i++) p[i] = 0x00;` (no bounds check here). -/
def zeroBytes (m : Mem) (p : Nat) : Nat → Mem
  | 0 => m
  | n + 1 => writeByte (zeroBytes m p n) (p + n) 0

/-- `Heap_Clear`: zero the whole buffer, then write the head node
`(HEAP_NODE_FREE, heap->size - NODE_SIZE)` at offset 0.  Always returns
`true`, so only the new heap is returned. -/
def Heap_Clear (h : Heap) : Except Fault Heap :=
  match h.data with
  | none => .error .nullDeref
  | some m =>
    let z := zeroBytes m 0 h.size
    match store32 h.size z 0 HEAP_NODE_FREE with
    | .error e => .error e
    | .ok m1 =>
      match store32 h.size m1 4 (u32 (h.size + 4294967296 - NODE_SIZE)) with
      | .error e => .error e
      | .ok m2 => .ok { h with data := some m2 }

/-- The label copy of `Heap_Init`: the characters before the first
terminator, at most `DESC_LENGTH_MAX` of them. -/
def copyDescription (description : List Nat) : List Nat :=
  (description.takeWhile (fun c => c ≠ 0)).take DESC_LENGTH_MAX

/-- `Heap_Init`.  `mallocHeap` says whether `malloc(sizeof(Heap))` succeeds,
`mallocData` is the result of `malloc(size)` (`none` for `NULL`, otherwise
the uninitialised contents), `mallocDesc` whether the label allocation
succeeds.  The result `none` is the `NULL` return. -/
def Heap_Init (size : Nat) (description : Option (List Nat))
    (mallocHeap : Bool) (mallocData : Option Mem) (mallocDesc : Bool) :
    Except Fault (Option Heap) :=
  if size < MINIMUM_DATA_SIZE then .ok none
  else if !mallocHeap then .ok none
  else
    let size := u32 (ALIGNED_32_BIT size)
    let desc : Option (List Nat) :=
      match description with
      | some d => if mallocDesc then some (copyDescription d) else none
      | none => none
    match Heap_Clear { size := size, data := mallocData, description := desc } with
    | .error e => .error e
    | .ok h => .ok (some h)

/-- The loop of `Heap_Find_Free`; `traverse` is the byte offset of the
traversal pointer.  `traverse - (HeapNode*)heap->data` is a difference of
`HeapNode*`, so it counts nodes of `NODE_SIZE` bytes. -/
def Heap_Find_Free_loop (cap : Nat) (m : Mem) (size : Nat) : Nat → Nat → Except Fault (Option Nat)
  | 0, _ => .error .outOfFuel
  | fuel + 1, traverse =>
    if traverse / NODE_SIZE ≥ cap then .ok none
    else
      match load32 cap m traverse with
      | .error e => .error e
      | .ok type =>
        match load32 cap m (traverse + 4) with
        | .error e => .error e
        | .ok nsize =>
          if type = HEAP_NODE_FREE ∧ nsize ≥ size then .ok (some traverse)
          else Heap_Find_Free_loop cap m size fuel (traverse + NODE_SIZE + nsize)

/-- `Heap_Find_Free` on a buffer of `cap` bytes.  Every iteration that does
not return advances by at least `NODE_SIZE` bytes and needs its node inside
the buffer, so `cap + 1` iterations always suffice. -/
def Heap_Find_Free (cap : Nat) (m : Mem) (size : Nat) : Except Fault (Option Nat) :=
  Heap_Find_Free_loop cap m size (cap + 1) 0

/-- `Heap_Use_Node` on the node at byte offset `node`. -/
def Heap_Use_Node (cap : Nat) (m : Mem) (node size : Nat) : Except Fault (Bool × Mem) :=
  let size := u32 (ALIGNED_32_BIT size)
  if size = 0 then .ok (false, m)
  else
    match load32 cap m node with
    | .error e => .error e
    | .ok type =>
      if type ≠ HEAP_NODE_FREE then .ok (false, m)
      else
        match load32 cap m (node + 4) with
        | .error e => .error e
        | .ok nsize =>
          if size > nsize then .ok (false, m)
          else
            let unused_data_size := nsize - size
            let split : Except Fault Mem :=
              if unused_data_size ≥ MINIMUM_DATA_SIZE then
                let free_node := node + NODE_SIZE + size
                match store32 cap m (free_node + 4) (u32 (unused_data_size - NODE_SIZE)) with
                | .error e => .error e
                | .ok m1 => store32 cap m1 free_node HEAP_NODE_FREE
              else .ok m
            match split with
            | .error e => .error e
            | .ok m2 =>
              match store32 cap m2 node HEAP_NODE_USED with
              | .error e => .error e
              | .ok m3 =>
                match store32 cap m3 (node + 4) size with
                | .error e => .error e
                | .ok m4 => .ok (true, m4)

/-- `Heap_Next_Node`.  `heap_hi` is `data + size - NODE_SIZE + MINIMUM_DATA_TYPE_SIZE`
(the textual expansion of `MINIMUM_DATA_SIZE`); `none` is the `NULL` return. -/
def Heap_Next_Node (cap : Nat) (m : Mem) (node : Nat) : Except Fault (Option Nat) :=
  match load32 cap m (node + 4) with
  | .error e => .error e
  | .ok nsize =>
    let heap_lo : Int := 0
    let heap_hi : Int := (cap : Int) - NODE_SIZE + MINIMUM_DATA_TYPE_SIZE
    let next : Nat := node + nsize + NODE_SIZE
    if (next : Int) ≥ heap_hi ∨ (next : Int) < heap_lo then .ok none else .ok (some next)

/-- The loop of `Heap_Free_Combiner`, entered with the values of `prev_node`
and `curr_node`; the condition `curr_node = Heap_Next_Node(heap, curr_node)`
is evaluated first, and `&&` reads `curr_node->type` only when
`prev_node->type` is `HEAP_NODE_FREE`. -/
def Heap_Free_Combiner_loop (cap : Nat) : Nat → Mem → Nat → Nat → Except Fault Mem
  | 0, _, _, _ => .error .outOfFuel
  | fuel + 1, m, prev_node, curr_node =>
    match Heap_Next_Node cap m curr_node with
    | .error e => .error e
    | .ok none => .ok m
    | .ok (some curr) =>
      match load32 cap m prev_node with
      | .error e => .error e
      | .ok ptype =>
        if ptype = HEAP_NODE_FREE then
          match load32 cap m curr with
          | .error e => .error e
          | .ok ctype =>
            if ctype = HEAP_NODE_FREE then
              match load32 cap m (prev_node + 4) with
              | .error e => .error e
              | .ok psize =>
                match load32 cap m (curr + 4) with
                | .error e => .error e
                | .ok csize =>
                  match store32 cap m (prev_node + 4) (u32 (psize + (csize + NODE_SIZE))) with
                  | .error e => .error e
                  | .ok m1 => Heap_Free_Combiner_loop cap fuel m1 prev_node prev_node
            else Heap_Free_Combiner_loop cap fuel m curr curr
        else Heap_Free_Combiner_loop cap fuel m curr curr

/-- `Heap_Free_Combiner` on a non-null `heap`: `false` for a `NULL` buffer,
otherwise the merging loop from offset 0 and `true`.  The loop of the C code
has no bound of its own, so the number of iterations allowed is an argument. -/
def Heap_Free_Combiner (fuel : Nat) (h : Heap) : Except Fault (Bool × Heap) :=
  match h.data with
  | none => .ok (false, h)
  | some m =>
    match Heap_Free_Combiner_loop h.size fuel m 0 0 with
    | .error e => .error e
    | .ok m1 => .ok (true, { h with data := some m1 })

/-- `Heap_Alloc` on a non-null `heap`; the pointer returned is the byte
offset of the payload, `none` is `NULL`. -/
def Heap_Alloc (h : Heap) (size : Nat) : Except Fault (Option Nat × Heap) :=
  match h.data with
  | none => .error .nullDeref
  | some m =>
    let size := u32 (ALIGNED_32_BIT size)
    match Heap_Find_Free h.size m size with
    | .error e => .error e
    | .ok none => .ok (none, h)
    | .ok (some node) =>
      match Heap_Use_Node h.size m node size with
      | .error e => .error e
      | .ok (true, m1) => .ok (some (node + NODE_SIZE), { h with data := some m1 })
      | .ok (false, m1) => .ok (none, { h with data := some m1 })

/-- `Heap_Dealloc` on a non-null `heap`; `ptr` is the (signed) byte offset of
the pointer from `heap->data`, `fuel` bounds the coalescing loop. -/
def Heap_Dealloc (fuel : Nat) (h : Heap) (ptr : Int) : Except Fault (Bool × Heap) :=
  let heap_lo : Int := NODE_SIZE
  let heap_hi : Int := (h.size : Int) - MINIMUM_DATA_TYPE_SIZE
  if ptr > heap_hi ∨ ptr < heap_lo then .ok (false, h)
  else
    match h.data with
    | none => .error .nullDeref
    | some m =>
      let node : Nat := (ptr - NODE_SIZE).toNat
      match load32 h.size m node with
      | .error e => .error e
      | .ok type =>
        if type = HEAP_NODE_USED then
          match load32 h.size m (node + 4) with
          | .error e => .error e
          | .ok nsize =>
            if ptr.toNat + nsize ≤ h.size then
              let m1 := zeroBytes m ptr.toNat nsize
              match store32 h.size m1 node HEAP_NODE_FREE with
              | .error e => .error e
              | .ok m2 =>
                match Heap_Free_Combiner fuel { h with data := some m2 } with
                | .error e => .error e
                | .ok (_, h1) => .ok (true, h1)
            else .error .outOfBounds
        else .ok (false, h)

/-- Header `(type, size)` stored at byte offset `o`. -/
def headerAt (m : Mem) (o : Nat) : Nat × Nat := (read32 m o, read32 m (o + 4))

/-- Offsets of the headers of the chain that starts at `o`: each header lies
inside the buffer and the next one is `NODE_SIZE + size` bytes further. -/
def headerChain (cap : Nat) (m : Mem) : Nat → Nat → List Nat
  | 0, _ => []
  | fuel + 1, o =>
    if o + NODE_SIZE ≤ cap then o :: headerChain cap m fuel (o + NODE_SIZE + read32 m (o + 4))
    else []

/-- The header chain of an arena, from offset 0 (`cap + 1` steps reach its end). -/
def chainOf (cap : Nat) (m : Mem) : List Nat := headerChain cap m (cap + 1) 0

/-- Offset at which the walk over the header chain from `o` stops: the first
position that is not the start of a header lying inside the buffer. -/
def chainEnd (cap : Nat) (m : Mem) : Nat → Nat → Nat
  | 0, o => o
  | fuel + 1, o =>
    if o + NODE_SIZE ≤ cap then chainEnd cap m fuel (o + NODE_SIZE + read32 m (o + 4))
    else o

/-- The blocks tile the arena: the walk from offset 0 stops exactly at `cap`. -/
def Tiles (cap : Nat) (m : Mem) : Prop := chainEnd cap m (cap + 1) 0 = cap

instance (cap : Nat) (m : Mem) : Decidable (Tiles cap m) := by
  unfold Tiles; exact inferInstance

/-- Contents of a freshly `malloc`ed buffer in the concrete scenarios. -/
def rawMem : Mem := fun _ => 0xAA

/-- Memory left by a successful `Heap_Use_Node` on a free node of payload
`s` with the aligned request `n`. -/
def useNodeMem (m : Mem) (node n s : Nat) : Mem :=
  let m2 :=
    if s - n ≥ MINIMUM_DATA_SIZE then
      write32 (write32 m (node + NODE_SIZE + n + 4) (u32 (s - n - NODE_SIZE)))
        (node + NODE_SIZE + n) HEAP_NODE_FREE
    else m
  write32 (write32 m2 node HEAP_NODE_USED) (node + 4) n

/-- The arena in which the `s` payload bytes starting at `p` are zero and the
header at `p - NODE_SIZE` has tag FREE. -/
def freedArena (h : Heap) (m : Mem) (p s : Nat) : Heap :=
  { h with data := some (write32 (zeroBytes m p s) (p - NODE_SIZE) HEAP_NODE_FREE) }

/-- One iteration of the loop of `Heap_Free_Combiner`: `none` when the loop
ends, otherwise the memory and the common value of `prev_node` and
`curr_node` for the next iteration. -/
def combinerStep (cap : Nat) (m : Mem) (prev_node curr_node : Nat) :
    Except Fault (Option (Mem × Nat)) :=
  match Heap_Next_Node cap m curr_node with
  | .error e => .error e
  | .ok none => .ok none
  | .ok (some curr) =>
    match load32 cap m prev_node with
    | .error e => .error e
    | .ok ptype =>
      if ptype = HEAP_NODE_FREE then
        match load32 cap m curr with
        | .error e => .error e
        | .ok ctype =>
          if ctype = HEAP_NODE_FREE then
            match load32 cap m (prev_node + 4) with
            | .error e => .error e
            | .ok psize =>
              match load32 cap m (curr + 4) with
              | .error e => .error e
              | .ok csize =>
                match store32 cap m (prev_node + 4) (u32 (psize + (csize + NODE_SIZE))) with
                | .error e => .error e
                | .ok m1 => .ok (some (m1, prev_node))
          else .ok (some (m, curr))
      else .ok (some (m, curr))

/-- Arena of 24 bytes holding the headers `(FREE, 4)` at offset 0 and
`(FREE, 0xFFFFFFF8)` at offset 12. -/
def wrapArena : Heap :=
  { size := 24
    data := some (write32 (write32 (write32 (write32 (fun _ => 0) 0 HEAP_NODE_FREE) 4 4)
      12 HEAP_NODE_FREE) 16 4294967288)
    description := none }

/-- Memory with the headers `(FREE, 4)` at offset 0 and `(FREE, 12)` at 12. -/
def mergeMem : Mem :=
  write32 (write32 (write32 (write32 (fun _ => 0) 0 HEAP_NODE_FREE) 4 4) 12 HEAP_NODE_FREE) 16 12

/-- A 32-byte arena made of two adjacent FREE blocks. -/
def mergeArena : Heap := { size := 32, data := some mergeMem, description := none }

/-- The arena `mergeArena` after one coalescing pass: one FREE block of 24. -/
def mergedArena : Heap :=
  { size := 32, data := some (write32 mergeMem 4 24), description := none }

/-- Arena of 16 bytes whose only header is `(USED, 100)`. -/
def overrunArena : Heap :=
  { size := 16
    data := some (write32 (write32 (fun _ => 0) 0 HEAP_NODE_USED) 4 100)
    description := none }

/-- Memory with the headers `(USED, 16)` at offset 0 and `(FREE, 32)` at 24. -/
def usedMem : Mem :=
  write32 (write32 (write32 (write32 (fun _ => 0) 0 HEAP_NODE_USED) 4 16) 24 HEAP_NODE_FREE) 28 32

/-- A 64-byte arena: a USED block of 16 followed by a FREE block of 32. -/
def usedArena : Heap := { size := 64, data := some usedMem, description := none }

/-- Memory with the headers `(USED, 4)` at 0, `(FREE, 4)` at 12 and
`(FREE, 32)` at 24. -/
def fitMem : Mem :=
  write32 (write32 (write32 (write32 (write32 (write32 (fun _ => 0) 0 HEAP_NODE_USED) 4 4)
    12 HEAP_NODE_FREE) 16 4) 24 HEAP_NODE_FREE) 28 32

/-- A 64-byte arena: a USED block, a FREE block of 4 and a FREE block of 32. -/
def fitArena : Heap := { size := 64, data := some fitMem, description := none }

/-- The `Heap` record as `Heap_Init` has filled it in when it calls
`Heap_Clear`: the rounded size stored in the `uint32_t` field, the result of
`malloc(size)` and the label copy. -/
def heapBeforeClear (size : Nat) (description : Option (List Nat))
    (mallocData : Option Mem) (mallocDesc : Bool) : Heap :=
  { size := u32 (ALIGNED_32_BIT size)
    data := mallocData
    description :=
      match description with
      | some d => if mallocDesc then some (copyDescription d) else none
      | none => none }

/-- The loop of `Heap_Find_Free` on a machine where the `ext` bytes from
`heap->data` on can be read; `cap` is `heap->size`.  With `ext = cap` (only
the buffer is readable) this is `Heap_Find_Free_loop`. -/
def Heap_Find_Free_loop_ext (ext cap : Nat) (m : Mem) (size : Nat) :
    Nat → Nat → Except Fault (Option Nat)
  | 0, _ => .error .outOfFuel
  | fuel + 1, traverse =>
    if traverse / NODE_SIZE ≥ cap then .ok none
    else
      match load32 ext m traverse with
      | .error e => .error e
      | .ok type =>
        match load32 ext m (traverse + 4) with
        | .error e => .error e
        | .ok nsize =>
          if type = HEAP_NODE_FREE ∧ nsize ≥ size then .ok (some traverse)
          else Heap_Find_Free_loop_ext ext cap m size fuel (traverse + NODE_SIZE + nsize)

/-- Memory of a 32-byte arena tiled by `(USED, 12)` at 0 and `(FREE, 4)` at 20. -/
def lastBlockMem : Mem :=
  write32 (write32 (write32 (write32 (fun _ => 0) 0 HEAP_NODE_USED) 4 12) 20 HEAP_NODE_FREE) 24 4

/-- Memory holding a FREE header of payload 40 at offset 8. -/
def splitMem : Mem := write32 (write32 rawMem 8 HEAP_NODE_FREE) 12 40

instance decEqExceptFault {α : Type} [DecidableEq α] : DecidableEq (Except Fault α) :=
  fun a b =>
    match a, b with
    | .ok x, .ok y =>
      if h : x = y then isTrue (by rw [h]) else isFalse (fun e => h (Except.ok.inj e))
    | .error x, .error y =>
      if h : x = y then isTrue (by rw [h]) else isFalse (fun e => h (Except.error.inj e))
    | .ok _, .error _ => isFalse (fun e => Except.noConfusion e)
    | .error _, .ok _ => isFalse (fun e => Except.noConfusion e)

/-- The value returned by a call (`Heap_Alloc`, `Heap_Dealloc`), without the heap. -/
def resultValue {α : Type} (r : Except Fault (α × Heap)) : Except Fault α :=
  match r with
  | .ok (a, _) => .ok a
  | .error e => .error e

/-- The heap left by a call that completed (`h` itself otherwise). -/
def resultHeap {α : Type} (h : Heap) (r : Except Fault (α × Heap)) : Heap :=
  match r with
  | .ok (_, h1) => h1
  | .error _ => h

/-- Whether `Heap_Init` returned an arena. -/
def initOk (r : Except Fault (Option Heap)) : Bool :=
  match r with
  | .ok (some _) => true
  | _ => false

/-- The arena returned by `Heap_Init` (an empty record when there is none). -/
def initHeap (r : Except Fault (Option Heap)) : Heap :=
  match r with
  | .ok (some h) => h
  | _ => { size := 0, data := none, description := none }

/-- The buffer contents of an arena (all zero for a `NULL` buffer). -/
def memOf (h : Heap) : Mem :=
  match h.data with
  | some m => m
  | none => fun _ => 0

/-- The states of the scenario `Heap_Init(1024, "test")`, `Alloc(100)`,
`Alloc(200)`, `Dealloc(8)`, `Alloc(50)`, `Dealloc(116)`. -/
def sc1024_0 : Heap := initHeap (Heap_Init 1024 (some [116, 101, 115, 116]) true (some rawMem) true)

/-- State after `Alloc(100)`. -/
def sc1024_1 : Heap := resultHeap sc1024_0 (Heap_Alloc sc1024_0 100)

/-- State after `Alloc(200)`. -/
def sc1024_2 : Heap := resultHeap sc1024_1 (Heap_Alloc sc1024_1 200)

/-- State after `Dealloc(8)`. -/
def sc1024_3 : Heap := resultHeap sc1024_2 (Heap_Dealloc 1024 sc1024_2 8)

/-- State after `Alloc(50)`. -/
def sc1024_4 : Heap := resultHeap sc1024_3 (Heap_Alloc sc1024_3 50)

/-- State after `Dealloc(116)`. -/
def sc1024_5 : Heap := resultHeap sc1024_4 (Heap_Dealloc 1024 sc1024_4 116)

/-- The blocks `(tag, payload_size)` of the header chain of an arena, in
address order. -/
def blocksOf (cap : Nat) (m : Mem) : List (Nat × Nat) := (chainOf cap m).map (headerAt m)

/-- The list `bs` of blocks `(tag, payload_size)` is laid out in memory from
offset `o` on, each block inside the buffer, the last one ending at `cap`. -/
def Blocks (cap : Nat) (m : Mem) : Nat → List (Nat × Nat) → Prop
  | o, [] => o = cap
  | o, b :: rest =>
    read32 m o = b.1 ∧ read32 m (o + 4) = b.2 ∧ o + NODE_SIZE + b.2 ≤ cap
      ∧ Blocks cap m (o + NODE_SIZE + b.2) rest

/-- Merging of runs of FREE blocks, with the block `cur` in hand: a FREE
block that follows a FREE block is absorbed into it together with its header
(`NODE_SIZE` bytes), any other block is kept. -/
def coalesceFrom : Nat × Nat → List (Nat × Nat) → List (Nat × Nat)
  | cur, [] => [cur]
  | cur, b :: rest =>
    if cur.1 = HEAP_NODE_FREE ∧ b.1 = HEAP_NODE_FREE then
      coalesceFrom (HEAP_NODE_FREE, cur.2 + b.2 + NODE_SIZE) rest
    else cur :: coalesceFrom b rest

/-- The block list in which every maximal run of adjacent FREE blocks is
replaced by one FREE block at the place of the first, whose payload is the
sum of the payloads of the run plus `NODE_SIZE` for every absorbed header;
every other block is unchanged. -/
def coalesce : List (Nat × Nat) → List (Nat × Nat)
  | [] => []
  | b :: rest => coalesceFrom b rest

/-- Memory of a 64-byte arena tiled by `(USED, 4)`, `(FREE, 4)`, `(FREE, 8)`,
`(FREE, 4)` and `(USED, 4)`. -/
def runMem : Mem :=
  write32 (write32 (write32 (write32 (write32 (write32 (write32 (write32 (write32 (write32
    (fun _ => 0) 0 HEAP_NODE_USED) 4 4) 12 HEAP_NODE_FREE) 16 4) 24 HEAP_NODE_FREE) 28 8)
    40 HEAP_NODE_FREE) 44 4) 52 HEAP_NODE_USED) 56 4

/-- The 64-byte arena with the blocks of `runMem`. -/
def runArena : Heap := { size := 64, data := some runMem, description := none }

/-- A `malloc`ed buffer that happens to hold zero bytes. -/
def zeroMem : Mem := fun _ => 0

/-- Capacity of the large scenario: `0x9309B14C` bytes (about 2.3 GiB). -/
def bigCap : Nat := 2466885964

/-- The arena that `Heap_Init(bigCap, NULL)` returns on a zero-filled buffer:
one FREE block of payload `bigCap - 8`. -/
def big0 : Heap :=
  { size := bigCap
    data := some (write32 (write32 zeroMem 0 HEAP_NODE_FREE) 4 (bigCap - NODE_SIZE))
    description := none }

/-- Large scenario, after `Alloc(8)` (block A at offset 0, pointer 8). -/
def big1 : Heap := resultHeap big0 (Heap_Alloc big0 8)

/-- After `Alloc(2054323576)` (block Y at 16, payload `HEAP_NODE_USED - 3`). -/
def big2 : Heap := resultHeap big1 (Heap_Alloc big1 2054323576)

/-- After `Alloc(4)` (block T at 2054323600). -/
def big3 : Heap := resultHeap big2 (Heap_Alloc big2 4)

/-- After `Alloc(1100)` (block at 2054323612). -/
def big4 : Heap := resultHeap big3 (Heap_Alloc big3 1100)

/-- After `Alloc(24)` (block U at 2054324720, pointer 2054324728). -/
def big5 : Heap := resultHeap big4 (Heap_Alloc big4 24)

/-- After `Dealloc` of U. -/
def big6 : Heap := resultHeap big5 (Heap_Dealloc 16 big5 2054324728)

/-- After `Alloc(20)` (U again, 4 bytes shorter). -/
def big7 : Heap := resultHeap big6 (Heap_Alloc big6 20)

/-- After `Alloc(412561208)` (block V at 2054324748, pointer 2054324756). -/
def big8 : Heap := resultHeap big7 (Heap_Alloc big7 412561208)

/-- After `Dealloc` of A. -/
def big9 : Heap := resultHeap big8 (Heap_Dealloc 16 big8 8)

/-- After `Alloc(4)` (A again, leftover 4 and no split). -/
def big10 : Heap := resultHeap big9 (Heap_Alloc big9 4)

/-- After the final `Alloc(16)`. -/
def big11 : Heap := resultHeap big10 (Heap_Alloc big10 16)

/-! ## Theorems -/

theorem read32_lt (m : Mem) (o : Nat) : read32 m o < 4294967296 := by
  unfold read32; omega

theorem writeByte_apply (m : Mem) (o v i : Nat) :
    writeByte m o v i = if i = o then v % 256 else m i := rfl

theorem write32_frame (m : Mem) (o v i : Nat) (hi : i < o ∨ o + 4 ≤ i) :
    write32 m o v i = m i := by
  simp only [write32, writeByte_apply]
  repeat (first | rw [if_neg (by omega)] | rfl)

theorem read32_write32_same (m : Mem) (o v : Nat) :
    read32 (write32 m o v) o = u32 v := by
  simp only [read32, write32, writeByte_apply, u32]
  simp only [if_true, if_neg (show o ≠ o + 1 by omega), if_neg (show o ≠ o + 2 by omega),
    if_neg (show o ≠ o + 3 by omega), if_neg (show o + 1 ≠ o + 2 by omega),
    if_neg (show o + 1 ≠ o + 3 by omega), if_neg (show o + 2 ≠ o + 3 by omega),
    if_neg (show o + 1 ≠ o by omega), if_neg (show o + 2 ≠ o by omega),
    if_neg (show o + 3 ≠ o by omega), if_neg (show o + 2 ≠ o + 1 by omega),
    if_neg (show o + 3 ≠ o + 1 by omega), if_neg (show o + 3 ≠ o + 2 by omega)]
  omega

theorem read32_congr (m m' : Mem) (o : Nat)
    (h : ∀ i, o ≤ i → i < o + 4 → m' i = m i) : read32 m' o = read32 m o := by
  unfold read32
  rw [h o (by omega) (by omega), h (o + 1) (by omega) (by omega),
    h (o + 2) (by omega) (by omega), h (o + 3) (by omega) (by omega)]

theorem read32_write32_disj (m : Mem) (o v o' : Nat) (hd : o' + 4 ≤ o ∨ o + 4 ≤ o') :
    read32 (write32 m o v) o' = read32 m o' :=
  read32_congr _ _ _ (fun i h1 h2 => write32_frame m o v i (by omega))

theorem zeroBytes_frame (m : Mem) (p n i : Nat) (hi : i < p ∨ p + n ≤ i) :
    zeroBytes m p n i = m i := by
  induction n with
  | zero => rfl
  | succ k ih =>
    simp only [zeroBytes, writeByte_apply]
    rw [if_neg (by omega)]
    exact ih (by omega)

theorem zeroBytes_inside (m : Mem) (p n i : Nat) (h1 : p ≤ i) (h2 : i < p + n) :
    zeroBytes m p n i = 0 := by
  induction n with
  | zero => omega
  | succ k ih =>
    simp only [zeroBytes, writeByte_apply]
    by_cases hik : i = p + k
    · rw [if_pos hik]
    · rw [if_neg hik]; exact ih (by omega)

theorem read32_zeroBytes_disj (m : Mem) (p n o : Nat) (hd : o + 4 ≤ p ∨ p + n ≤ o) :
    read32 (zeroBytes m p n) o = read32 m o :=
  read32_congr _ _ _ (fun i h1 h2 => zeroBytes_frame m p n i (by omega))

theorem load32_ok (cap : Nat) (m : Mem) (o : Nat) (h : o + 4 ≤ cap) :
    load32 cap m o = .ok (read32 m o) := by
  simp [load32, h]

theorem store32_ok (cap : Nat) (m : Mem) (o v : Nat) (h : o + 4 ≤ cap) :
    store32 cap m o v = .ok (write32 m o v) := by
  simp [store32, h]

theorem aligned_idem (n : Nat) :
    u32 (ALIGNED_32_BIT (u32 (ALIGNED_32_BIT n))) = u32 (ALIGNED_32_BIT n) := by
  simp only [u32, ALIGNED_32_BIT, MINIMUM_DATA_TYPE_SIZE]; omega

theorem headerChain_ge (cap : Nat) (m : Mem) (fuel t x : Nat)
    (hx : x ∈ headerChain cap m fuel t) : t ≤ x := by
  induction fuel generalizing t with
  | zero => simp [headerChain] at hx
  | succ k ih =>
    simp only [headerChain] at hx
    split at hx
    · rcases List.mem_cons.1 hx with h | h
      · omega
      · have := ih _ h; simp only [NODE_SIZE] at this; omega
    · simp at hx

theorem headerChain_inside (cap : Nat) (m : Mem) (fuel t x : Nat)
    (hx : x ∈ headerChain cap m fuel t) : x + NODE_SIZE ≤ cap := by
  induction fuel generalizing t with
  | zero => simp [headerChain] at hx
  | succ k ih =>
    simp only [headerChain] at hx
    split at hx
    · rcases List.mem_cons.1 hx with h | h
      · subst h; assumption
      · exact ih _ h
    · simp at hx

theorem Heap_Find_Free_loop_first_fit (cap : Nat) (m : Mem) (n o : Nat)
    (hfit : read32 m o = HEAP_NODE_FREE ∧ n ≤ read32 m (o + 4)) :
    ∀ (fuelC fuelF t : Nat), fuelC ≤ fuelF → o ∈ headerChain cap m fuelC t →
      (∀ x ∈ headerChain cap m fuelC t, x < o →
        ¬ (read32 m x = HEAP_NODE_FREE ∧ n ≤ read32 m (x + 4))) →
      Heap_Find_Free_loop cap m n fuelF t = .ok (some o) := by
  intro fuelC
  induction fuelC with
  | zero => intro fuelF t _ hmem; simp [headerChain] at hmem
  | succ k ih =>
    intro fuelF t hle hmem hlow
    obtain ⟨f, rfl⟩ : ∃ f, fuelF = f + 1 := ⟨fuelF - 1, by omega⟩
    simp only [headerChain] at hmem hlow
    by_cases hin : t + NODE_SIZE ≤ cap
    · rw [if_pos hin] at hmem hlow
      simp only [NODE_SIZE] at hin
      have hdiv : ¬ (t / NODE_SIZE ≥ cap) := by simp only [NODE_SIZE]; omega
      simp only [Heap_Find_Free_loop]
      rw [if_neg hdiv, load32_ok _ _ _ (by omega), load32_ok _ _ _ (by omega)]
      simp only []
      by_cases hft : read32 m t = HEAP_NODE_FREE ∧ read32 m (t + 4) ≥ n
      · rw [if_pos hft]
        rcases List.mem_cons.1 hmem with h | h
        · rw [h]
        · exfalso
          have hge := headerChain_ge _ _ _ _ _ h
          simp only [NODE_SIZE] at hge
          exact hlow t (List.mem_cons_self _ _) (by omega) hft
      · rw [if_neg hft]
        rcases List.mem_cons.1 hmem with h | h
        · exact absurd (h ▸ hfit) hft
        · exact ih f _ (by omega) h (fun x hx hxo => hlow x (List.mem_cons_of_mem _ hx) hxo)
    · rw [if_neg hin] at hmem; simp at hmem

theorem Heap_Use_Node_ok (cap : Nat) (m : Mem) (node n : Nat)
    (hal : u32 (ALIGNED_32_BIT n) = n) (hpos : 0 < n)
    (hfree : read32 m node = HEAP_NODE_FREE) (hfit : n ≤ read32 m (node + 4))
    (hin : node + NODE_SIZE + read32 m (node + 4) ≤ cap) :
    Heap_Use_Node cap m node n = .ok (true, useNodeMem m node n (read32 m (node + 4))) := by
  simp only [NODE_SIZE] at hin
  simp only [Heap_Use_Node, hal]
  rw [if_neg (by omega), load32_ok _ _ _ (by omega)]
  simp only [hfree, ne_eq, not_true_eq_false, if_false]
  rw [load32_ok _ _ _ (by omega)]
  simp only []
  rw [if_neg (by omega)]
  simp only [useNodeMem]
  by_cases hs : read32 m (node + 4) - n ≥ MINIMUM_DATA_SIZE
  · simp only [if_pos hs]
    simp only [MINIMUM_DATA_SIZE, NODE_SIZE, MINIMUM_DATA_TYPE_SIZE] at hs
    rw [store32_ok _ _ _ _ (by simp only [NODE_SIZE]; omega)]
    simp only []
    rw [store32_ok _ _ _ _ (by simp only [NODE_SIZE]; omega)]
    simp only []
    rw [store32_ok _ _ _ _ (by omega)]
    simp only []
    rw [store32_ok _ _ _ _ (by omega)]
  · simp only [if_neg hs]
    rw [store32_ok _ _ _ _ (by omega)]
    simp only []
    rw [store32_ok _ _ _ _ (by omega)]

/-- First fit on the header chain.  In every arena with a buffer, for a
request whose word-aligned size `n` is positive: when the header chain from
offset 0 has a block at `o` lying inside the buffer that is FREE with payload
at least `n`, and no chain block before `o` qualifies, `Heap_Alloc` succeeds,
returns the payload address `o + NODE_SIZE` of that block and marks it
`(USED, n)`.  Blocks that the chain from offset 0 no longer reaches are not
covered. -/
theorem Heap_Alloc_first_fit (h : Heap) (m : Mem) (req o : Nat)
    (hdata : h.data = some m)
    (hpos : 0 < u32 (ALIGNED_32_BIT req))
    (hmem : o ∈ chainOf h.size m)
    (hfree : read32 m o = HEAP_NODE_FREE)
    (hfit : u32 (ALIGNED_32_BIT req) ≤ read32 m (o + 4))
    (hin : o + NODE_SIZE + read32 m (o + 4) ≤ h.size)
    (hlow : ∀ x ∈ chainOf h.size m, x < o →
      ¬ (read32 m x = HEAP_NODE_FREE ∧ u32 (ALIGNED_32_BIT req) ≤ read32 m (x + 4))) :
    ∃ m1, Heap_Alloc h req = .ok (some (o + NODE_SIZE), { h with data := some m1 })
      ∧ headerAt m1 o = (HEAP_NODE_USED, u32 (ALIGNED_32_BIT req)) := by
  have hfind : Heap_Find_Free h.size m (u32 (ALIGNED_32_BIT req)) = .ok (some o) :=
    Heap_Find_Free_loop_first_fit h.size m _ o ⟨hfree, hfit⟩ (h.size + 1) (h.size + 1) 0
      (Nat.le_refl _) hmem hlow
  have huse := Heap_Use_Node_ok h.size m o (u32 (ALIGNED_32_BIT req)) (aligned_idem req)
    hpos hfree hfit hin
  refine ⟨useNodeMem m o (u32 (ALIGNED_32_BIT req)) (read32 m (o + 4)), ?_, ?_⟩
  · simp only [Heap_Alloc, hdata, hfind, huse]
  · simp only [headerAt, useNodeMem]
    rw [read32_write32_disj _ _ _ _ (by omega), read32_write32_same,
      read32_write32_same]
    simp only [u32, HEAP_NODE_USED]
    simp only [Nat.mod_mod]

/-- Example on `fitArena`: the request 10 (aligned 12) skips the USED
block at 0 and the too small FREE block at 12 and takes the block at 24. -/
theorem Heap_Alloc_first_fit_witness :
    ∃ m1, Heap_Alloc fitArena 10
        = .ok (some (24 + NODE_SIZE), { fitArena with data := some m1 })
      ∧ headerAt m1 24 = (HEAP_NODE_USED, u32 (ALIGNED_32_BIT 10)) :=
  Heap_Alloc_first_fit fitArena fitMem 10 24 rfl (by decide) (by decide)
    (by decide) (by decide) (by decide) (by decide)

/-- C6 (Dealloc bounds check).  For every arena and every pointer whose
offset from the buffer start is below `NODE_SIZE` or above
`size - MINIMUM_DATA_TYPE_SIZE`, `Heap_Dealloc` returns `false` and the arena
is returned unchanged. -/
theorem Heap_Dealloc_out_of_range (fuel : Nat) (h : Heap) (ptr : Int)
    (hout : ptr < (NODE_SIZE : Int) ∨ ptr > (h.size : Int) - (MINIMUM_DATA_TYPE_SIZE : Int)) :
    Heap_Dealloc fuel h ptr = .ok (false, h) := by
  unfold Heap_Dealloc
  simp only []
  rw [if_pos (by omega)]

/-- Witness of C6: offset 61 in a 64-byte arena is above `64 - 4`. -/
theorem Heap_Dealloc_out_of_range_witness :
    Heap_Dealloc 10 { size := 64, data := some rawMem, description := none } 61
      = .ok (false, { size := 64, data := some rawMem, description := none }) :=
  Heap_Dealloc_out_of_range 10 { size := 64, data := some rawMem, description := none } 61
    (by decide)

/-- C7 (Dealloc success), amended.  For every arena with a buffer and every
in-range pointer `p`: when the header at `p - NODE_SIZE` has tag USED with
payload size `s` and the `s` payload bytes lie inside the buffer,
`Heap_Dealloc` is the coalescing pass run on the arena in which those bytes
are zero and the tag is FREE, with the return value `true`; when the tag is
not USED it returns `false` and the arena is unchanged. -/
theorem Heap_Dealloc_in_range (fuel : Nat) (h : Heap) (m : Mem) (p : Nat)
    (hdata : h.data = some m) (hlo : NODE_SIZE ≤ p) (hhi : p + MINIMUM_DATA_TYPE_SIZE ≤ h.size) :
    (read32 m (p - NODE_SIZE) = HEAP_NODE_USED →
      p + read32 m (p - NODE_SIZE + 4) ≤ h.size →
      Heap_Dealloc fuel h (p : Int) =
        match Heap_Free_Combiner fuel (freedArena h m p (read32 m (p - NODE_SIZE + 4))) with
        | .error e => .error e
        | .ok (_, h1) => .ok (true, h1))
    ∧ (read32 m (p - NODE_SIZE) ≠ HEAP_NODE_USED →
      Heap_Dealloc fuel h (p : Int) = .ok (false, h)) := by
  simp only [NODE_SIZE, MINIMUM_DATA_TYPE_SIZE] at hlo hhi
  have hnode : ((p : Int) - (NODE_SIZE : Int)).toNat = p - NODE_SIZE := by
    simp only [NODE_SIZE]; omega
  have hp : ((p : Int)).toNat = p := by omega
  have hrange : ¬ ((p : Int) > (h.size : Int) - (MINIMUM_DATA_TYPE_SIZE : Int)
      ∨ (p : Int) < (NODE_SIZE : Int)) := by
    simp only [NODE_SIZE, MINIMUM_DATA_TYPE_SIZE]; omega
  have hld : load32 h.size m (p - NODE_SIZE) = .ok (read32 m (p - NODE_SIZE)) :=
    load32_ok _ _ _ (by simp only [NODE_SIZE]; omega)
  have hld4 : load32 h.size m (p - NODE_SIZE + 4) = .ok (read32 m (p - NODE_SIZE + 4)) :=
    load32_ok _ _ _ (by simp only [NODE_SIZE]; omega)
  constructor
  · intro hused hpay
    unfold Heap_Dealloc
    simp only [hdata, hnode, hp]
    rw [if_neg hrange]
    simp only [hld, hused, if_true, hld4]
    rw [if_pos hpay, store32_ok _ _ _ _ (by simp only [NODE_SIZE]; omega)]
    simp only [freedArena]
  · intro hnot
    unfold Heap_Dealloc
    simp only [hdata, hnode]
    rw [if_neg hrange]
    simp only [hld, if_neg hnot]

theorem Heap_Next_Node_some (cap : Nat) (m : Mem) (node c : Nat)
    (h : Heap_Next_Node cap m node = .ok (some c)) :
    node + 8 ≤ cap ∧ c = node + read32 m (node + 4) + NODE_SIZE ∧ c + 4 < cap := by
  unfold Heap_Next_Node load32 at h
  by_cases hb : node + 4 + 4 ≤ cap
  · rw [if_pos hb] at h
    simp only [NODE_SIZE, MINIMUM_DATA_TYPE_SIZE] at h
    split at h
    · simp at h
    · rename_i hc
      simp only [Except.ok.injEq, Option.some.injEq] at h
      simp only [NODE_SIZE]
      omega
  · rw [if_neg hb] at h; simp at h

theorem Heap_Next_Node_congr (cap : Nat) (m m' : Mem) (node : Nat)
    (h : read32 m' (node + 4) = read32 m (node + 4)) :
    Heap_Next_Node cap m' node = Heap_Next_Node cap m node := by
  unfold Heap_Next_Node load32
  rw [h]

theorem load32_congr (cap : Nat) (m m' : Mem) (o : Nat)
    (h : read32 m' o = read32 m o) : load32 cap m' o = load32 cap m o := by
  unfold load32; rw [h]

theorem Heap_Free_Combiner_loop_succ (cap fuel : Nat) (m : Mem) (p c : Nat) :
    Heap_Free_Combiner_loop cap (fuel + 1) m p c =
      match combinerStep cap m p c with
      | .error e => .error e
      | .ok none => .ok m
      | .ok (some (m1, n)) => Heap_Free_Combiner_loop cap fuel m1 n n := by
  rw [Heap_Free_Combiner_loop]; unfold combinerStep
  cases Heap_Next_Node cap m c with
  | error e => rfl
  | ok o =>
    cases o with
    | none => rfl
    | some curr =>
      simp only []
      cases load32 cap m p with
      | error e => rfl
      | ok ptype =>
        simp only []
        by_cases hp : ptype = HEAP_NODE_FREE
        · simp only [if_pos hp]
          cases load32 cap m curr with
          | error e => rfl
          | ok ctype =>
            simp only []
            by_cases hc : ctype = HEAP_NODE_FREE
            · simp only [if_pos hc]
              cases load32 cap m (p + 4) with
              | error e => rfl
              | ok psize =>
                simp only []
                cases load32 cap m (curr + 4) with
                | error e => rfl
                | ok csize =>
                  simp only []
                  cases store32 cap m (p + 4) (u32 (psize + (csize + NODE_SIZE))) with
                  | error e => rfl
                  | ok m1 => rfl
            · simp only [if_neg hc]
        · simp only [if_neg hp]

theorem Heap_Free_Combiner_loop_fuel_succ (cap : Nat) (fuel : Nat) :
    ∀ (m : Mem) (p c : Nat) (r : Mem), Heap_Free_Combiner_loop cap fuel m p c = .ok r →
      Heap_Free_Combiner_loop cap (fuel + 1) m p c = .ok r := by
  induction fuel with
  | zero => intro m p c r h; simp [Heap_Free_Combiner_loop] at h
  | succ k ih =>
    intro m p c r h
    rw [Heap_Free_Combiner_loop_succ] at h ⊢
    cases hs : combinerStep cap m p c with
    | error e => rw [hs] at h; simp at h
    | ok o =>
      rw [hs] at h
      cases o with
      | none => exact h
      | some q => exact ih _ _ _ _ h

theorem combinerStep_cases (cap : Nat) (m : Mem) (p : Nat) (m1 : Mem) (n : Nat)
    (h : combinerStep cap m p p = .ok (some (m1, n))) :
    (n = p ∧ ∃ v, m1 = write32 m (p + 4) v) ∨
    (p + 8 ≤ n ∧ m1 = m ∧ ∀ m2 : Mem, read32 m2 (p + 4) = read32 m (p + 4) →
      read32 m2 p = read32 m p → read32 m2 n = read32 m n →
      combinerStep cap m2 p p = .ok (some (m2, n))) := by
  unfold combinerStep at h
  cases hN : Heap_Next_Node cap m p with
  | error e => rw [hN] at h; simp at h
  | ok o =>
    rw [hN] at h
    cases o with
    | none => simp at h
    | some curr =>
      have hcurr := Heap_Next_Node_some cap m p curr hN
      simp only [NODE_SIZE] at hcurr
      simp only [] at h
      cases hP : load32 cap m p with
      | error e => rw [hP] at h; simp at h
      | ok ptype =>
        rw [hP] at h
        simp only [] at h
        have hPv : ptype = read32 m p := by
          unfold load32 at hP; split at hP <;> simp at hP; exact hP.symm
        have adv : m1 = m → n = curr →
            (read32 m p = HEAP_NODE_FREE → read32 m curr ≠ HEAP_NODE_FREE) →
            (p + 8 ≤ n ∧ m1 = m ∧ ∀ m2 : Mem, read32 m2 (p + 4) = read32 m (p + 4) →
              read32 m2 p = read32 m p → read32 m2 n = read32 m n →
              combinerStep cap m2 p p = .ok (some (m2, n))) := by
          intro e1 e2 hne
          subst e1 e2
          refine ⟨by omega, rfl, ?_⟩
          intro m2 a1 a2 a3
          unfold combinerStep
          rw [Heap_Next_Node_congr cap m1 m2 p a1, hN]
          simp only []
          rw [load32_ok _ _ _ (by omega), load32_ok _ _ _ (by omega), a2, a3]
          simp only []
          by_cases hf : read32 m1 p = HEAP_NODE_FREE
          · rw [if_pos hf, if_neg (hne hf)]
          · rw [if_neg hf]
        by_cases hp : ptype = HEAP_NODE_FREE
        · rw [if_pos hp] at h
          cases hC : load32 cap m curr with
          | error e => rw [hC] at h; simp at h
          | ok ctype =>
            rw [hC] at h
            simp only [] at h
            have hCv : ctype = read32 m curr := by
              unfold load32 at hC; split at hC <;> simp at hC; exact hC.symm
            by_cases hc : ctype = HEAP_NODE_FREE
            · rw [if_pos hc] at h
              left
              cases hA : load32 cap m (p + 4) with
              | error e => rw [hA] at h; simp at h
              | ok psize =>
                rw [hA] at h
                simp only [] at h
                cases hB : load32 cap m (curr + 4) with
                | error e => rw [hB] at h; simp at h
                | ok csize =>
                  rw [hB] at h
                  simp only [] at h
                  rw [store32_ok _ _ _ _ (by omega)] at h
                  simp only [Except.ok.injEq, Option.some.injEq, Prod.mk.injEq] at h
                  exact ⟨h.2.symm, _, h.1.symm⟩
            · rw [if_neg hc] at h
              simp only [Except.ok.injEq, Option.some.injEq, Prod.mk.injEq] at h
              right
              exact adv h.1.symm h.2.symm (fun _ => hCv ▸ hc)
        · rw [if_neg hp] at h
          simp only [Except.ok.injEq, Option.some.injEq, Prod.mk.injEq] at h
          right
          exact adv h.1.symm h.2.symm (fun hf => absurd (hPv ▸ hf) hp)

theorem Heap_Free_Combiner_loop_frame (cap : Nat) (fuel : Nat) :
    ∀ (m : Mem) (p : Nat) (r : Mem), Heap_Free_Combiner_loop cap fuel m p p = .ok r →
      ∀ i, i < p + 4 → r i = m i := by
  induction fuel with
  | zero => intro m p r h; simp [Heap_Free_Combiner_loop] at h
  | succ k ih =>
    intro m p r h i hi
    rw [Heap_Free_Combiner_loop_succ] at h
    cases hs : combinerStep cap m p p with
    | error e => rw [hs] at h; simp at h
    | ok o =>
      rw [hs] at h
      cases o with
      | none =>
        simp only [Except.ok.injEq] at h
        rw [h]
      | some q =>
        obtain ⟨m1, n⟩ := q
        simp only [] at h
        rcases combinerStep_cases cap m p m1 n hs with ⟨hn, v, hm1⟩ | ⟨hn, hm1, _⟩
        · subst hn hm1
          rw [ih _ _ _ h i hi, write32_frame _ _ _ _ (by omega)]
        · subst hm1
          exact ih _ _ _ h i (by omega)

theorem Heap_Free_Combiner_loop_idem (cap : Nat) (fuel : Nat) :
    ∀ (m : Mem) (p : Nat) (r : Mem), Heap_Free_Combiner_loop cap fuel m p p = .ok r →
      Heap_Free_Combiner_loop cap fuel r p p = .ok r := by
  induction fuel with
  | zero => intro m p r h; simp [Heap_Free_Combiner_loop] at h
  | succ k ih =>
    intro m p r h
    have h0 := h
    rw [Heap_Free_Combiner_loop_succ] at h
    cases hs : combinerStep cap m p p with
    | error e => rw [hs] at h; simp at h
    | ok o =>
      rw [hs] at h
      cases o with
      | none =>
        simp only [Except.ok.injEq] at h
        rw [← h]; rw [← h] at h0; exact h0
      | some q =>
        obtain ⟨m1, n⟩ := q
        simp only [] at h
        rcases combinerStep_cases cap m p m1 n hs with ⟨hn, v, hm1⟩ | ⟨hn, hm1, hcongr⟩
        · subst hn
          exact Heap_Free_Combiner_loop_fuel_succ cap k _ _ _ _ (ih _ _ _ h)
        · subst hm1
          have hfr := Heap_Free_Combiner_loop_frame cap k m1 n r h
          have hstep : combinerStep cap r p p = .ok (some (r, n)) :=
            hcongr r
              (read32_congr _ _ _ (fun i _ _ => hfr i (by omega)))
              (read32_congr _ _ _ (fun i _ _ => hfr i (by omega)))
              (read32_congr _ _ _ (fun i _ _ => hfr i (by omega)))
          rw [Heap_Free_Combiner_loop_succ, hstep]
          exact ih _ _ _ h

/-- C9 (coalescing idempotence), amended.  For every arena with a non-null
buffer on which one run of `Heap_Free_Combiner` completes, a second run (with
the same iteration bound) completes too, returns `true`, and leaves exactly
the arena the first run produced. -/
theorem Heap_Free_Combiner_idempotent (fuel : Nat) (h h1 : Heap) (b : Bool)
    (hbuf : h.data ≠ none)
    (hrun : Heap_Free_Combiner fuel h = .ok (b, h1)) :
    Heap_Free_Combiner fuel h1 = .ok (true, h1) := by
  unfold Heap_Free_Combiner at hrun
  cases hd : h.data with
  | none => exact absurd hd hbuf
  | some m =>
    rw [hd] at hrun
    simp only [] at hrun
    cases hl : Heap_Free_Combiner_loop h.size fuel m 0 0 with
    | error e => rw [hl] at hrun; simp at hrun
    | ok r =>
      rw [hl] at hrun
      simp only [Except.ok.injEq, Prod.mk.injEq] at hrun
      obtain ⟨_, rfl⟩ := hrun
      unfold Heap_Free_Combiner
      simp only []
      rw [Heap_Free_Combiner_loop_idem _ _ _ _ _ hl]

theorem wrap_loop_never_ends (fuel : Nat) :
    ∀ m : Mem, read32 m 0 = HEAP_NODE_FREE → read32 m 4 = 4 → read32 m 12 = HEAP_NODE_FREE →
      read32 m 16 = 4294967288 →
      Heap_Free_Combiner_loop 24 fuel m 0 0 = .error .outOfFuel := by
  induction fuel with
  | zero => intro m _ _ _ _; rfl
  | succ k ih =>
    intro m h0 h4 h12 h16
    have hstep : combinerStep 24 m 0 0 = .ok (some (write32 m 4 4, 0)) := by
      have hN : Heap_Next_Node 24 m 0 = .ok (some 12) := by
        unfold Heap_Next_Node
        rw [load32_ok _ _ _ (by omega), h4]
        rfl
      unfold combinerStep
      rw [hN]
      simp only []
      rw [load32_ok _ _ _ (by omega), h0]
      simp only [if_true]
      rw [load32_ok _ _ _ (by omega), h12]
      simp only [if_true]
      rw [load32_ok _ _ _ (by omega), load32_ok _ _ _ (by omega), h4, h16]
      simp only []
      rw [store32_ok _ _ _ _ (by omega)]
      rfl
    rw [Heap_Free_Combiner_loop_succ, hstep]
    refine ih _ ?_ ?_ ?_ ?_
    · rw [read32_write32_disj _ _ _ _ (by omega)]; exact h0
    · rw [read32_write32_same]; rfl
    · rw [read32_write32_disj _ _ _ _ (by omega)]; exact h12
    · rw [read32_write32_disj _ _ _ _ (by omega)]; exact h16

/-- C9, counterexample.  On the 24-byte arena with headers `(FREE, 4)` at 0
and `(FREE, 0xFFFFFFF8)` at 12 the merge leaves `prev_node->size` at 4
(`4 + 0xFFFFFFF8 + 8` wraps), so no run of `Heap_Free_Combiner` ever
completes: there is no state that one or two runs yield. -/
theorem Heap_Free_Combiner_wrap_diverges :
    wrapArena.data ≠ none ∧
    ∀ fuel : Nat, Heap_Free_Combiner fuel wrapArena = .error .outOfFuel := by
  refine ⟨by simp [wrapArena], fun fuel => ?_⟩
  unfold Heap_Free_Combiner
  simp only [wrapArena]
  rw [wrap_loop_never_ends fuel _ (by decide) (by decide) (by decide) (by decide)]

/-- Witness of C9: `mergeArena` coalesces into `mergedArena`, which a further
pass returns unchanged. -/
theorem Heap_Free_Combiner_idempotent_witness :
    Heap_Free_Combiner 5 mergedArena = .ok (true, mergedArena) :=
  Heap_Free_Combiner_idempotent 5 mergeArena mergedArena true (by simp [mergeArena]) rfl

/-- C7, counterexample.  In the 16-byte arena whose header at offset 0 is
`(USED, 100)` the pointer 8 is in range and its header has tag USED, yet
`Heap_Dealloc` does not return: zeroing 100 payload bytes from offset 8
leaves the buffer. -/
theorem Heap_Dealloc_payload_overrun :
    ((NODE_SIZE : Int) ≤ 8 ∧ (8 : Int) ≤ (overrunArena.size : Int) - MINIMUM_DATA_TYPE_SIZE)
    ∧ (∃ m, overrunArena.data = some m ∧ headerAt m 0 = (HEAP_NODE_USED, 100))
    ∧ ∀ fuel : Nat, Heap_Dealloc fuel overrunArena 8 = .error .outOfBounds :=
  ⟨by decide, ⟨_, rfl, by decide⟩, fun _ => rfl⟩

/-- Witness of C7 on `usedArena` with the pointer 8. -/
theorem Heap_Dealloc_in_range_witness :
    Heap_Dealloc 10 usedArena ((8 : Nat) : Int) =
      match Heap_Free_Combiner 10 (freedArena usedArena usedMem 8 (read32 usedMem (8 - NODE_SIZE + 4))) with
      | .error e => .error e
      | .ok (_, h1) => .ok (true, h1) :=
  (Heap_Dealloc_in_range 10 usedArena usedMem 8 rfl (by decide) (by decide)).1
    (by decide) (by decide)

theorem Heap_Init_rejects_small (size : Nat) (description : Option (List Nat))
    (mallocHeap : Bool) (mallocData : Option Mem) (mallocDesc : Bool)
    (hsmall : size < MINIMUM_DATA_SIZE) :
    Heap_Init size description mallocHeap mallocData mallocDesc = .ok none := by
  unfold Heap_Init; rw [if_pos hsmall]

theorem Heap_Init_succeeds (size : Nat) (description : Option (List Nat))
    (raw : Mem) (mallocDesc : Bool)
    (hmin : MINIMUM_DATA_SIZE ≤ size) (hmax : size ≤ 4294967292) :
    ∃ h, Heap_Init size description true (some raw) mallocDesc = .ok (some h)
      ∧ h.size = ALIGNED_32_BIT size := by
  simp only [MINIMUM_DATA_SIZE, NODE_SIZE, MINIMUM_DATA_TYPE_SIZE] at hmin
  have hal : u32 (ALIGNED_32_BIT size) = ALIGNED_32_BIT size := by
    simp only [u32, ALIGNED_32_BIT, MINIMUM_DATA_TYPE_SIZE]; omega
  have hge : 12 ≤ ALIGNED_32_BIT size := by
    simp only [ALIGNED_32_BIT, MINIMUM_DATA_TYPE_SIZE]; omega
  unfold Heap_Init
  rw [if_neg (by simp only [MINIMUM_DATA_SIZE, NODE_SIZE, MINIMUM_DATA_TYPE_SIZE]; omega)]
  simp only [Bool.not_true, Bool.false_eq_true, if_false, hal, Heap_Clear]
  rw [store32_ok _ _ _ _ (by omega)]
  simp only []
  rw [store32_ok _ _ _ _ (by omega)]
  exact ⟨_, rfl, rfl⟩

/-- C10, failing input.  `Heap_Init(4294967295, ...)` passes the minimum-size
test, `ALIGNED_32_BIT` then yields `0x100000000`, stored as 0 in the
`uint32_t`; the buffer has 0 bytes and `Heap_Clear` writes the head node
outside it, whatever `malloc` returned and whatever the label. -/
theorem Heap_Init_capacity_wraps (description : Option (List Nat)) (raw : Mem)
    (mallocDesc : Bool) :
    ¬ (4294967295 < MINIMUM_DATA_SIZE) ∧ u32 (ALIGNED_32_BIT 4294967295) = 0 ∧
    Heap_Init 4294967295 description true (some raw) mallocDesc = .error .outOfBounds :=
  ⟨by decide, by decide, rfl⟩

/-- C1, failing input.  `Heap_Init(28)` then `Heap_Alloc(16)`: the free block
of 20 is used without a split (leftover 4) and its header becomes
`(USED, 16)`, so the walk from offset 0 stops at 24, not at the capacity 28:
the last 4 bytes belong to no block. -/
theorem Heap_Alloc_breaks_tiling :
    ∃ h0 h1 m1, Heap_Init 28 none true (some rawMem) true = .ok (some h0)
      ∧ Heap_Alloc h0 16 = .ok (some 8, h1)
      ∧ h1.size = 28 ∧ h1.data = some m1
      ∧ headerAt m1 0 = (HEAP_NODE_USED, 16)
      ∧ chainOf 28 m1 = [0]
      ∧ chainEnd 28 m1 29 0 = 24
      ∧ ¬ Tiles 28 m1 :=
  ⟨_, _, _, rfl, rfl, rfl, rfl, by decide, by decide, by decide, by decide⟩

/-- C2, failing input.  `Heap_Init(32)`, `Heap_Alloc(16)` (returns offset 8,
leftover 8, no split), `Heap_Dealloc` of that pointer (returns `true`): the
header at 0 is then `(FREE, 16)`, not the initial `(FREE, 24)`. -/
theorem Heap_Alloc_Dealloc_round_trip_shrinks :
    ∃ h0 m0 h1 h2 m2, Heap_Init 32 none true (some rawMem) true = .ok (some h0)
      ∧ h0.data = some m0 ∧ headerAt m0 0 = (HEAP_NODE_FREE, 24) ∧ chainOf 32 m0 = [0]
      ∧ Heap_Alloc h0 16 = .ok (some 8, h1)
      ∧ Heap_Dealloc 32 h1 8 = .ok (true, h2)
      ∧ h2.size = 32 ∧ h2.data = some m2
      ∧ headerAt m2 0 = (HEAP_NODE_FREE, 16)
      ∧ (chainOf 32 m2).map (headerAt m2) = [(HEAP_NODE_FREE, 16), (0, 0)] :=
  ⟨_, _, _, _, _, rfl, rfl, by decide, by decide, rfl, rfl, rfl, rfl, by decide, by decide⟩

theorem Heap_Find_Free_loop_fuel (cap : Nat) (m : Mem) (n : Nat) (fuel : Nat) :
    ∀ t : Nat, cap < t + 8 * (fuel + 1) →
      Heap_Find_Free_loop cap m n (fuel + 1) t ≠ .error .outOfFuel := by
  have stop : ∀ (f t : Nat), cap < t + 8 →
      Heap_Find_Free_loop cap m n (f + 1) t ≠ .error .outOfFuel := by
    intro f t ht
    rw [Heap_Find_Free_loop]
    by_cases hd : t / NODE_SIZE ≥ cap
    · rw [if_pos hd]; simp
    · rw [if_neg hd]
      unfold load32
      by_cases h4 : t + 4 ≤ cap
      · rw [if_pos h4]
        simp only []
        rw [if_neg (by omega)]
        simp
      · rw [if_neg h4]; simp
  induction fuel with
  | zero => intro t ht; exact stop 0 t (by omega)
  | succ k ih =>
    intro t ht
    by_cases hin : t + 8 ≤ cap
    · rw [Heap_Find_Free_loop]
      by_cases hd : t / NODE_SIZE ≥ cap
      · rw [if_pos hd]; simp
      · rw [if_neg hd, load32_ok _ _ _ (by omega), load32_ok _ _ _ (by omega)]
        simp only []
        by_cases hf : read32 m t = HEAP_NODE_FREE ∧ read32 m (t + 4) ≥ n
        · rw [if_pos hf]; simp
        · rw [if_neg hf]
          exact ih _ (by simp only [NODE_SIZE]; omega)
    · exact stop (k + 1) t (by omega)

theorem Heap_Find_Free_fuel (cap : Nat) (m : Mem) (n : Nat) :
    Heap_Find_Free cap m n ≠ .error .outOfFuel :=
  Heap_Find_Free_loop_fuel cap m n cap 0 (by omega)

theorem chainEnd_fuel_succ (cap : Nat) (m : Mem) (fuel : Nat) :
    ∀ t : Nat, cap < t + 8 * fuel + 8 →
      chainEnd cap m (fuel + 1) t = chainEnd cap m fuel t := by
  induction fuel with
  | zero =>
    intro t ht
    simp only [chainEnd, NODE_SIZE]
    rw [if_neg (by omega)]
  | succ k ih =>
    intro t ht
    rw [chainEnd]
    conv => rhs; rw [chainEnd]
    by_cases hin : t + NODE_SIZE ≤ cap
    · rw [if_pos hin, if_pos hin]
      exact ih _ (by simp only [NODE_SIZE]; omega)
    · rw [if_neg hin, if_neg hin]

theorem Heap_Find_Free_loop_no_fit (cap : Nat) (m : Mem) (n : Nat) (fuelC : Nat) :
    ∀ (fuelF t : Nat), fuelC < fuelF → cap < t + 8 * fuelC + 8 →
      (∀ x ∈ headerChain cap m fuelC t,
        ¬ (read32 m x = HEAP_NODE_FREE ∧ n ≤ read32 m (x + 4))) →
      Heap_Find_Free_loop cap m n fuelF t =
        if chainEnd cap m fuelC t / NODE_SIZE ≥ cap then .ok none
        else .error .outOfBounds := by
  have stop : ∀ (f t : Nat), cap < t + 8 →
      Heap_Find_Free_loop cap m n (f + 1) t =
        if t / NODE_SIZE ≥ cap then .ok none else .error .outOfBounds := by
    intro f t ht
    rw [Heap_Find_Free_loop]
    by_cases hd : t / NODE_SIZE ≥ cap
    · rw [if_pos hd, if_pos hd]
    · rw [if_neg hd, if_neg hd]
      unfold load32
      by_cases h4 : t + 4 ≤ cap
      · rw [if_pos h4]
        simp only []
        rw [if_neg (by omega)]
      · rw [if_neg h4]
  induction fuelC with
  | zero =>
    intro fuelF t hf ht _
    obtain ⟨f, rfl⟩ : ∃ f, fuelF = f + 1 := ⟨fuelF - 1, by omega⟩
    rw [chainEnd]
    exact stop f t (by omega)
  | succ k ih =>
    intro fuelF t hf ht hno
    obtain ⟨f, rfl⟩ : ∃ f, fuelF = f + 1 := ⟨fuelF - 1, by omega⟩
    rw [chainEnd]
    rw [headerChain] at hno
    by_cases hin : t + NODE_SIZE ≤ cap
    · rw [if_pos hin] at hno ⊢
      simp only [NODE_SIZE] at hin
      rw [Heap_Find_Free_loop]
      rw [if_neg (by simp only [NODE_SIZE]; omega), load32_ok _ _ _ (by omega),
        load32_ok _ _ _ (by omega)]
      simp only []
      rw [if_neg (hno t (List.mem_cons_self _ _))]
      exact ih f _ (by omega) (by simp only [NODE_SIZE]; omega)
        (fun x hx => hno x (List.mem_cons_of_mem _ hx))
    · rw [if_neg hin]
      exact stop f t (by simp only [NODE_SIZE] at hin; omega)

/-- On an arena whose blocks tile the buffer and none of which fits the
request, the scan of `Heap_Find_Free` reaches offset `cap`, where its end test
does not fire, and reads outside the buffer. -/
theorem Heap_Find_Free_no_fit_on_tiled (cap : Nat) (m : Mem) (n : Nat)
    (hcap : 0 < cap) (htiles : Tiles cap m)
    (hno : ∀ x ∈ chainOf cap m, ¬ (read32 m x = HEAP_NODE_FREE ∧ n ≤ read32 m (x + 4))) :
    Heap_Find_Free cap m n = .error .outOfBounds := by
  have hend : chainEnd cap m cap 0 = cap := by
    rw [← chainEnd_fuel_succ cap m cap 0 (by omega)]; exact htiles
  have hno2 : ∀ x ∈ headerChain cap m cap 0,
      ¬ (read32 m x = HEAP_NODE_FREE ∧ n ≤ read32 m (x + 4)) := by
    intro x hx
    apply hno x
    unfold chainOf
    clear hno hend htiles
    have key : ∀ (fuel t : Nat), x ∈ headerChain cap m fuel t →
        x ∈ headerChain cap m (fuel + 1) t := by
      intro fuel
      induction fuel with
      | zero => intro t h; simp [headerChain] at h
      | succ k ih =>
        intro t h
        rw [headerChain] at h ⊢
        by_cases hin : t + NODE_SIZE ≤ cap
        · rw [if_pos hin] at h ⊢
          rcases List.mem_cons.1 h with h1 | h1
          · exact h1 ▸ List.mem_cons_self _ _
          · exact List.mem_cons_of_mem _ (ih _ h1)
        · rw [if_neg hin] at h; simp at h
    exact key _ _ hx
  unfold Heap_Find_Free
  rw [Heap_Find_Free_loop_no_fit cap m n cap (cap + 1) 0 (by omega) (by omega) hno2, hend]
  rw [if_neg]
  simp only [NODE_SIZE]
  omega

/-- C4, failing input.  `Heap_Init(64)` then `Heap_Alloc(1000)`: the scan
steps from the only block to offset 64, where the end test compares
`64 / 8 = 8` nodes with the capacity 64 and does not fire, and reads a header
outside the buffer instead of returning `NULL`. -/
theorem Heap_Alloc_fit_failure_reads_past_buffer :
    ∃ h0, Heap_Init 64 none true (some rawMem) true = .ok (some h0)
      ∧ Heap_Alloc h0 1000 = .error .outOfBounds :=
  ⟨_, rfl, rfl⟩

/-- C8, failing input.  `Heap_Init(64)`, `Alloc(12) = 8`, `Alloc(4) = 28`,
`Dealloc(8)`, `Alloc(8) = 8` (leftover 4, no split), `Dealloc(28)`: every
call succeeds, and the blocks at offsets 20 and `20 + 8 + 4 = 32`, both
created by `Heap_Use_Node`, are then both FREE. -/
theorem Heap_Dealloc_leaves_adjacent_free_blocks :
    ∃ h0 h1 h2 h3 h4 h5 m5, Heap_Init 64 none true (some rawMem) true = .ok (some h0)
      ∧ Heap_Alloc h0 12 = .ok (some 8, h1)
      ∧ Heap_Alloc h1 4 = .ok (some 28, h2)
      ∧ Heap_Dealloc 64 h2 8 = .ok (true, h3)
      ∧ Heap_Alloc h3 8 = .ok (some 8, h4)
      ∧ Heap_Dealloc 64 h4 28 = .ok (true, h5)
      ∧ h5.data = some m5
      ∧ headerAt m5 20 = (HEAP_NODE_FREE, 4)
      ∧ headerAt m5 (20 + NODE_SIZE + 4) = (HEAP_NODE_FREE, 24) :=
  ⟨_, _, _, _, _, _, _, rfl, rfl, rfl, rfl, rfl, rfl, rfl, by decide, by decide⟩

theorem Heap_Init_eq_clear (size : Nat) (description : Option (List Nat))
    (mallocData : Option Mem) (mallocDesc : Bool) (hmin : ¬ size < MINIMUM_DATA_SIZE) :
    Heap_Init size description true mallocData mallocDesc =
      match Heap_Clear (heapBeforeClear size description mallocData mallocDesc) with
      | .error e => .error e
      | .ok h => .ok (some h) := by
  unfold Heap_Init heapBeforeClear
  rw [if_neg hmin]
  rfl

theorem Heap_Clear_ok (h : Heap) (m : Mem) (hdata : h.data = some m)
    (hcap : MINIMUM_DATA_SIZE ≤ h.size) :
    Heap_Clear h = .ok { h with data := some (write32 (write32 (zeroBytes m 0 h.size) 0
        HEAP_NODE_FREE) 4 (u32 (h.size + 4294967296 - NODE_SIZE))) } := by
  simp only [MINIMUM_DATA_SIZE, NODE_SIZE, MINIMUM_DATA_TYPE_SIZE] at hcap
  unfold Heap_Clear
  simp only [hdata]
  rw [store32_ok _ _ _ _ (by omega)]
  simp only []
  rw [store32_ok _ _ _ _ (by omega)]

theorem Heap_Clear_header_and_zeros (h : Heap) (m : Mem) (hdata : h.data = some m)
    (hcap : MINIMUM_DATA_SIZE ≤ h.size) (hu32 : h.size < 4294967296) :
    ∃ m1, Heap_Clear h = .ok { h with data := some m1 }
      ∧ headerAt m1 0 = (HEAP_NODE_FREE, h.size - NODE_SIZE)
      ∧ ∀ i, NODE_SIZE ≤ i → i < h.size → m1 i = 0 := by
  refine ⟨_, Heap_Clear_ok h m hdata hcap, ?_, ?_⟩
  · simp only [MINIMUM_DATA_SIZE, NODE_SIZE, MINIMUM_DATA_TYPE_SIZE] at hcap
    simp only [headerAt]
    rw [read32_write32_disj _ _ _ _ (by omega), read32_write32_same,
      show (0 + 4 : Nat) = 4 from rfl, read32_write32_same]
    simp only [u32, HEAP_NODE_FREE, NODE_SIZE, Prod.mk.injEq]
    exact ⟨trivial, by omega⟩
  · intro i hlo hhi
    simp only [NODE_SIZE] at hlo
    rw [write32_frame _ _ _ _ (by omega), write32_frame _ _ _ _ (by omega)]
    exact zeroBytes_inside m 0 h.size i (by omega) (by omega)

/-- C11 (Reset postcondition).  For every arena with a buffer whose capacity
(a `uint32_t`) is at least 12, `Heap_Clear` completes (it always returns
`true`) and leaves the capacity and the label as they were, the header
`(FREE, capacity - 8)` at offset 0 and the value 0 in every byte at offsets 8
to `capacity - 1`. -/
theorem Heap_Clear_postcondition (h : Heap) (m : Mem) (hdata : h.data = some m)
    (hcap : MINIMUM_DATA_SIZE ≤ h.size) (hu32 : h.size < 4294967296) :
    ∃ m1, Heap_Clear h = .ok { h with data := some m1 }
      ∧ headerAt m1 0 = (HEAP_NODE_FREE, h.size - NODE_SIZE)
      ∧ ∀ i, NODE_SIZE ≤ i → i < h.size → m1 i = 0 :=
  Heap_Clear_header_and_zeros h m hdata hcap hu32

/-- Witness of C11 on a 64-byte arena with arbitrary contents. -/
theorem Heap_Clear_postcondition_witness :
    ∃ m1, Heap_Clear { size := 64, data := some rawMem, description := none }
        = .ok { size := 64, data := some m1, description := none }
      ∧ headerAt m1 0 = (HEAP_NODE_FREE, 64 - NODE_SIZE)
      ∧ ∀ i, NODE_SIZE ≤ i → i < 64 → m1 i = 0 :=
  Heap_Clear_postcondition { size := 64, data := some rawMem, description := none } rawMem rfl
    (by decide) (by decide)

/-- The postcondition of `Heap_Clear` holds for the arena returned by every
successful `Heap_Init`. -/
theorem Heap_Init_postcondition (size : Nat) (description : Option (List Nat))
    (mallocHeap : Bool) (mallocData : Option Mem) (mallocDesc : Bool) (h : Heap)
    (hsize : size < 4294967296)
    (hinit : Heap_Init size description mallocHeap mallocData mallocDesc = .ok (some h)) :
    ∃ m1, h.data = some m1
      ∧ headerAt m1 0 = (HEAP_NODE_FREE, h.size - NODE_SIZE)
      ∧ ∀ i, NODE_SIZE ≤ i → i < h.size → m1 i = 0 := by
  by_cases hmin : size < MINIMUM_DATA_SIZE
  · rw [Heap_Init_rejects_small _ _ _ _ _ hmin] at hinit; simp at hinit
  · cases mallocHeap with
    | false => simp [Heap_Init, hmin] at hinit
    | true =>
      rw [Heap_Init_eq_clear _ _ _ _ hmin] at hinit
      cases hd : mallocData with
      | none => rw [hd] at hinit; simp [Heap_Clear, heapBeforeClear] at hinit
      | some raw =>
        rw [hd] at hinit
        by_cases hbig : MINIMUM_DATA_SIZE ≤ u32 (ALIGNED_32_BIT size)
        · obtain ⟨m1, hc, hh, hz⟩ := Heap_Clear_header_and_zeros
            (heapBeforeClear size description (some raw) mallocDesc) raw rfl hbig
            (by simp only [heapBeforeClear, u32]; omega)
          rw [hc] at hinit
          simp only [Except.ok.injEq, Option.some.injEq] at hinit
          subst hinit
          exact ⟨m1, rfl, hh, hz⟩
        · exfalso
          simp only [MINIMUM_DATA_SIZE, NODE_SIZE, MINIMUM_DATA_TYPE_SIZE] at hbig hmin
          have h0 : u32 (ALIGNED_32_BIT size) = 0 := by
            simp only [u32, ALIGNED_32_BIT, MINIMUM_DATA_TYPE_SIZE] at hbig ⊢; omega
          simp [Heap_Clear, heapBeforeClear, store32, h0] at hinit

theorem ALIGNED_32_BIT_least (c : Nat) :
    ALIGNED_32_BIT c % 4 = 0 ∧ c ≤ ALIGNED_32_BIT c ∧
      ∀ k, k % 4 = 0 → c ≤ k → ALIGNED_32_BIT c ≤ k := by
  simp only [ALIGNED_32_BIT, MINIMUM_DATA_TYPE_SIZE]
  refine ⟨by omega, by omega, fun k hk hc => by omega⟩

theorem Heap_Init_capacity_rounded (size : Nat) (description : Option (List Nat))
    (mallocHeap : Bool) (mallocData : Option Mem) (mallocDesc : Bool) (h : Heap)
    (hmax : size ≤ 4294967292)
    (hinit : Heap_Init size description mallocHeap mallocData mallocDesc = .ok (some h)) :
    h.size = ALIGNED_32_BIT size := by
  by_cases hmin : size < MINIMUM_DATA_SIZE
  · rw [Heap_Init_rejects_small _ _ _ _ _ hmin] at hinit; simp at hinit
  · cases mallocHeap with
    | false => simp [Heap_Init, hmin] at hinit
    | true =>
      rw [Heap_Init_eq_clear _ _ _ _ hmin] at hinit
      have hal : u32 (ALIGNED_32_BIT size) = ALIGNED_32_BIT size := by
        simp only [u32, ALIGNED_32_BIT, MINIMUM_DATA_TYPE_SIZE]; omega
      cases hd : mallocData with
      | none => rw [hd] at hinit; simp [Heap_Clear, heapBeforeClear] at hinit
      | some raw =>
        rw [hd] at hinit
        have hge : MINIMUM_DATA_SIZE ≤ (heapBeforeClear size description (some raw) mallocDesc).size := by
          simp only [MINIMUM_DATA_SIZE, NODE_SIZE, MINIMUM_DATA_TYPE_SIZE] at hmin ⊢
          simp only [heapBeforeClear, u32, ALIGNED_32_BIT, MINIMUM_DATA_TYPE_SIZE]
          omega
        rw [Heap_Clear_ok _ raw rfl hge] at hinit
        simp only [Except.ok.injEq, Option.some.injEq] at hinit
        rw [← hinit]
        exact hal

/-- C12, failing input.  For the requested capacity 4294967295 (a
`uint32_t`, at least 12) the record that `Heap_Init` builds and returns has
the stored capacity 0: `ALIGNED_32_BIT` yields `0x100000000`, which the
`uint32_t` field truncates.  0 is below the request, so it is not the least
multiple of 4 at or above it.  `Heap_Init` then runs `Heap_Clear` on that
record, whose buffer of 0 bytes cannot hold the head node. -/
theorem Heap_Init_stores_capacity_zero (description : Option (List Nat))
    (mallocData : Option Mem) (mallocDesc : Bool) :
    (MINIMUM_DATA_SIZE ≤ 4294967295 ∧ 4294967295 < 4294967296)
    ∧ (heapBeforeClear 4294967295 description mallocData mallocDesc).size = 0
    ∧ ¬ (4294967295 ≤ (heapBeforeClear 4294967295 description mallocData mallocDesc).size)
    ∧ Heap_Init 4294967295 description true mallocData mallocDesc =
        match Heap_Clear (heapBeforeClear 4294967295 description mallocData mallocDesc) with
        | .error e => .error e
        | .ok h => .ok (some h) :=
  ⟨by decide, rfl, fun hle => absurd (show (4294967295 : Nat) ≤ 0 from hle) (by decide),
    Heap_Init_eq_clear _ _ _ _ (by decide)⟩

theorem Heap_Next_Node_eq (cap : Nat) (m : Mem) (node : Nat) (hin : node + NODE_SIZE ≤ cap) :
    Heap_Next_Node cap m node =
      .ok (if node + read32 m (node + 4) + NODE_SIZE + MINIMUM_DATA_TYPE_SIZE < cap
        then some (node + read32 m (node + 4) + NODE_SIZE) else none) := by
  simp only [NODE_SIZE, MINIMUM_DATA_TYPE_SIZE] at hin ⊢
  unfold Heap_Next_Node
  rw [load32_ok _ _ _ (by omega)]
  simp only [NODE_SIZE, MINIMUM_DATA_TYPE_SIZE]
  by_cases hc : node + read32 m (node + 4) + 8 + 4 < cap
  · rw [if_pos hc, if_neg (by omega)]
  · rw [if_neg hc, if_pos (by omega)]

/-- C16, failing input.  In the 32-byte arena tiled by `(USED, 12)` at 0 and
`(FREE, 4)` at 20 the candidate after the first header is 20, which is not
below `capacity - 12 = 20`, yet `Heap_Next_Node` returns it: `heap_hi` is
`data + size - NODE_SIZE + MINIMUM_DATA_TYPE_SIZE`, that is `capacity - 4`. -/
theorem Heap_Next_Node_accepts_last_block :
    headerAt lastBlockMem 0 = (HEAP_NODE_USED, 12)
    ∧ ¬ (0 + NODE_SIZE + 12 < 32 - MINIMUM_DATA_SIZE)
    ∧ Heap_Next_Node 32 lastBlockMem 0 = .ok (some 20) :=
  ⟨by decide, by decide, rfl⟩

theorem Heap_Find_Free_loop_at_capacity (cap : Nat) (m : Mem) (size fuel : Nat)
    (hcap : 0 < cap) :
    Heap_Find_Free_loop cap m size (fuel + 1) cap = .error .outOfBounds := by
  rw [Heap_Find_Free_loop, if_neg (by simp only [NODE_SIZE]; omega)]
  unfold load32
  rw [if_neg (by omega)]

/-- C17, failing input.  On the arena of `Heap_Init(64)` the scan for 1000
bytes reaches offset 64, the capacity; there the end test compares
`64 / 8 = 8` with 64, does not return not-found, and the header at offset 64
is read. -/
theorem Heap_Find_Free_inspects_past_capacity :
    ∃ h0 m0, Heap_Init 64 none true (some rawMem) true = .ok (some h0)
      ∧ h0.size = 64 ∧ h0.data = some m0
      ∧ headerAt m0 0 = (HEAP_NODE_FREE, 56)
      ∧ ¬ (64 / NODE_SIZE ≥ 64)
      ∧ Heap_Find_Free_loop 64 m0 1000 1 64 = .error .outOfBounds
      ∧ Heap_Find_Free 64 m0 1000 = .error .outOfBounds :=
  ⟨_, _, rfl, rfl, rfl, by decide, by decide, rfl, rfl⟩

/-- C18, failing input.  After `Heap_Init(32)` and `Heap_Alloc(16)` (leftover
8, no split) the chain walked from offset 0 has a second header at offset 24
whose tag is 0 and whose payload size is 0. -/
theorem Heap_Alloc_leaves_zero_size_header :
    ∃ h0 h1 m1, Heap_Init 32 none true (some rawMem) true = .ok (some h0)
      ∧ Heap_Alloc h0 16 = .ok (some 8, h1)
      ∧ h1.size = 32 ∧ h1.data = some m1
      ∧ Heap_Next_Node 32 m1 0 = .ok (some 24)
      ∧ chainOf 32 m1 = [0, 24]
      ∧ headerAt m1 24 = (0, 0) :=
  ⟨_, _, _, rfl, rfl, rfl, rfl, rfl, by decide, by decide⟩

theorem Heap_Find_Free_loop_ext_self (cap : Nat) (m : Mem) (size fuel : Nat) :
    ∀ t, Heap_Find_Free_loop_ext cap cap m size fuel t = Heap_Find_Free_loop cap m size fuel t := by
  induction fuel with
  | zero => intro t; rfl
  | succ k ih =>
    intro t
    rw [Heap_Find_Free_loop_ext, Heap_Find_Free_loop]
    simp only [ih]

theorem Heap_Find_Free_loop_ext_fuel (ext cap : Nat) (m : Mem) (size fuel : Nat) :
    ∀ t, cap ≤ t / NODE_SIZE + fuel →
      Heap_Find_Free_loop_ext ext cap m size (fuel + 1) t ≠ .error .outOfFuel := by
  induction fuel with
  | zero =>
    intro t ht
    rw [Heap_Find_Free_loop_ext, if_pos (by omega)]
    simp
  | succ k ih =>
    intro t ht
    rw [Heap_Find_Free_loop_ext]
    by_cases hd : t / NODE_SIZE ≥ cap
    · rw [if_pos hd]; simp
    · rw [if_neg hd]
      unfold load32
      by_cases h4 : t + 4 ≤ ext
      · rw [if_pos h4]
        simp only []
        by_cases h8 : t + 4 + 4 ≤ ext
        · rw [if_pos h8]
          simp only []
          by_cases hf : read32 m t = HEAP_NODE_FREE ∧ read32 m (t + 4) ≥ size
          · rw [if_pos hf]; simp
          · rw [if_neg hf]
            apply ih
            simp only [NODE_SIZE] at ht ⊢
            omega
        · rw [if_neg h8]; simp
      · rw [if_neg h4]; simp

/-- C20 (search termination).  For every arena contents and every request
size the loop of `Heap_Find_Free` ends within `capacity + 1` iterations, also
when memory past the buffer can be read (`ext` readable bytes): every
iteration that does not return moves the traversal position at least
`NODE_SIZE` bytes on, and the end test fires once the position, counted in
nodes, reaches the capacity.  `Heap_Find_Free` is the case `ext = cap`. -/
theorem Heap_Find_Free_terminates (ext cap : Nat) (m : Mem) (size : Nat) :
    Heap_Find_Free_loop_ext ext cap m size (cap + 1) 0 ≠ .error .outOfFuel
    ∧ Heap_Find_Free cap m size = Heap_Find_Free_loop_ext cap cap m size (cap + 1) 0
    ∧ Heap_Find_Free cap m size ≠ .error .outOfFuel := by
  have h1 := Heap_Find_Free_loop_ext_fuel ext cap m size cap 0 (by simp)
  have h2 := Heap_Find_Free_loop_ext_fuel cap cap m size cap 0 (by simp)
  have h3 : Heap_Find_Free cap m size = Heap_Find_Free_loop_ext cap cap m size (cap + 1) 0 := by
    unfold Heap_Find_Free
    rw [Heap_Find_Free_loop_ext_self]
  exact ⟨h1, h3, h3 ▸ h2⟩

theorem result_eq {α : Type} (h : Heap) (r : Except Fault (α × Heap)) (a : α)
    (hv : resultValue r = .ok a) : r = .ok (a, resultHeap h r) := by
  cases r with
  | error e => simp [resultValue] at hv
  | ok p =>
    obtain ⟨a1, h1⟩ := p
    simp only [resultValue, Except.ok.injEq] at hv
    simp only [resultHeap, hv]

theorem init_eq (r : Except Fault (Option Heap)) (hv : initOk r = true) :
    r = .ok (some (initHeap r)) := by
  cases r with
  | error e => simp [initOk] at hv
  | ok o =>
    cases o with
    | none => simp [initOk] at hv
    | some h => rfl

theorem memOf_eq (h : Heap) (hv : h.data.isSome = true) : h.data = some (memOf h) := by
  unfold memOf
  cases hd : h.data with
  | none => rw [hd] at hv; simp at hv
  | some m => rfl

set_option maxRecDepth 1000000 in
/-- C13 (concrete scenario).  From `Heap_Init(1024, "test")`: `Alloc(100)`
returns P1 at offset 8, `Alloc(200)` returns P2 at offset 116 (above P1),
`Dealloc(P1)` returns `true`, `Alloc(50)` returns P1 again, and after
`Dealloc(P2)` (which returns `true`) the header chain is the USED block of
payload 52 at offset 0 followed by one FREE block of payload 956 at offset
60, which ends at the capacity 1024. -/
theorem scenario_1024 :
    ∃ h0 h1 h2 h3 h4 h5 m5,
      Heap_Init 1024 (some [116, 101, 115, 116]) true (some rawMem) true = .ok (some h0)
      ∧ Heap_Alloc h0 100 = .ok (some 8, h1)
      ∧ Heap_Alloc h1 200 = .ok (some 116, h2)
      ∧ 8 < 116
      ∧ Heap_Dealloc 1024 h2 8 = .ok (true, h3)
      ∧ Heap_Alloc h3 50 = .ok (some 8, h4)
      ∧ Heap_Dealloc 1024 h4 116 = .ok (true, h5)
      ∧ h5.size = 1024 ∧ h5.data = some m5
      ∧ (chainOf 1024 m5).map (fun o => (o, headerAt m5 o))
          = [(0, (HEAP_NODE_USED, 52)), (60, (HEAP_NODE_FREE, 956))]
      ∧ 60 + NODE_SIZE + 956 = 1024
      ∧ Tiles 1024 m5 :=
  ⟨sc1024_0, sc1024_1, sc1024_2, sc1024_3, sc1024_4, sc1024_5, memOf sc1024_5,
    init_eq _ (by decide!),
    result_eq _ _ _ (by decide!),
    result_eq _ _ _ (by decide!),
    by decide,
    result_eq _ _ _ (by decide!),
    result_eq _ _ _ (by decide!),
    result_eq _ _ _ (by decide!),
    by decide!, memOf_eq _ (by decide!), by decide!, by decide, by decide!⟩

/-- C14 (split step).  For every FREE header at `node` whose block of
payload `P` lies inside the buffer and every word-aligned size `n` with
`0 < n ≤ P`, `Heap_Use_Node` returns `true` and leaves the header
`(USED, n)` at `node`; when the leftover `P - n` is at least 12 it also
leaves the header `(FREE, P - n - 8)` at `node + 8 + n`, so that the two
blocks, of `8 + n` and `8 + (P - n - 8)` bytes, cover the `8 + P` bytes of
the original block.  No byte outside these two headers is written. -/
theorem Heap_Use_Node_split (cap : Nat) (m : Mem) (node n : Nat)
    (haligned : n % MINIMUM_DATA_TYPE_SIZE = 0) (hn32 : n < 4294967296) (hpos : 0 < n)
    (hfree : read32 m node = HEAP_NODE_FREE)
    (hfit : n ≤ read32 m (node + 4))
    (hin : node + NODE_SIZE + read32 m (node + 4) ≤ cap) :
    ∃ m1, Heap_Use_Node cap m node n = .ok (true, m1)
      ∧ headerAt m1 node = (HEAP_NODE_USED, n)
      ∧ (MINIMUM_DATA_SIZE ≤ read32 m (node + 4) - n →
          headerAt m1 (node + NODE_SIZE + n) = (HEAP_NODE_FREE, read32 m (node + 4) - n - NODE_SIZE)
          ∧ (NODE_SIZE + n) + (NODE_SIZE + (read32 m (node + 4) - n - NODE_SIZE))
              = NODE_SIZE + read32 m (node + 4))
      ∧ ∀ i, ¬ (node ≤ i ∧ i < node + NODE_SIZE) →
          ¬ (MINIMUM_DATA_SIZE ≤ read32 m (node + 4) - n ∧ node + NODE_SIZE + n ≤ i
              ∧ i < node + NODE_SIZE + n + NODE_SIZE) →
          m1 i = m i := by
  have hP := read32_lt m (node + 4)
  have hal : u32 (ALIGNED_32_BIT n) = n := by
    simp only [MINIMUM_DATA_TYPE_SIZE] at haligned
    simp only [u32, ALIGNED_32_BIT, MINIMUM_DATA_TYPE_SIZE]; omega
  refine ⟨_, Heap_Use_Node_ok cap m node n hal hpos hfree hfit hin, ?_, ?_, ?_⟩
  · simp only [headerAt, useNodeMem]
    rw [read32_write32_disj _ _ _ _ (by omega), read32_write32_same, read32_write32_same]
    simp only [u32, HEAP_NODE_USED, Prod.mk.injEq]
    exact ⟨trivial, by omega⟩
  · intro hsplit
    simp only [MINIMUM_DATA_SIZE, NODE_SIZE, MINIMUM_DATA_TYPE_SIZE] at hsplit hin ⊢
    refine ⟨?_, by omega⟩
    simp only [headerAt, useNodeMem, MINIMUM_DATA_SIZE, NODE_SIZE, MINIMUM_DATA_TYPE_SIZE]
    rw [if_pos hsplit]
    rw [read32_write32_disj _ _ _ _ (by omega), read32_write32_disj _ _ _ _ (by omega),
      read32_write32_same, read32_write32_disj _ _ _ _ (by omega),
      read32_write32_disj _ _ _ _ (by omega), read32_write32_disj _ _ _ _ (by omega),
      read32_write32_same]
    simp only [u32, HEAP_NODE_FREE, Prod.mk.injEq]
    exact ⟨trivial, by omega⟩
  · intro i h1 h2
    simp only [MINIMUM_DATA_SIZE, NODE_SIZE, MINIMUM_DATA_TYPE_SIZE] at h1 h2 hin ⊢
    simp only [useNodeMem, MINIMUM_DATA_SIZE, NODE_SIZE, MINIMUM_DATA_TYPE_SIZE]
    rw [write32_frame _ _ _ _ (by omega), write32_frame _ _ _ _ (by omega)]
    by_cases hsplit : 8 + 4 ≤ read32 m (node + 4) - n
    · rw [if_pos hsplit, write32_frame _ _ _ _ (by omega), write32_frame _ _ _ _ (by omega)]
    · rw [if_neg hsplit]

/-- Witness of C14: the FREE header of payload 40 at offset 8 used for 16
bytes in a 64-byte buffer (leftover 24, split). -/
theorem Heap_Use_Node_split_witness :
    ∃ m1, Heap_Use_Node 64 splitMem 8 16 = .ok (true, m1)
      ∧ headerAt m1 8 = (HEAP_NODE_USED, 16)
      ∧ (MINIMUM_DATA_SIZE ≤ read32 splitMem (8 + 4) - 16 →
          headerAt m1 (8 + NODE_SIZE + 16) = (HEAP_NODE_FREE, read32 splitMem (8 + 4) - 16 - NODE_SIZE)
          ∧ (NODE_SIZE + 16) + (NODE_SIZE + (read32 splitMem (8 + 4) - 16 - NODE_SIZE))
              = NODE_SIZE + read32 splitMem (8 + 4))
      ∧ ∀ i, ¬ (8 ≤ i ∧ i < 8 + NODE_SIZE) →
          ¬ (MINIMUM_DATA_SIZE ≤ read32 splitMem (8 + 4) - 16 ∧ 8 + NODE_SIZE + 16 ≤ i
              ∧ i < 8 + NODE_SIZE + 16 + NODE_SIZE) →
          m1 i = splitMem i :=
  Heap_Use_Node_split 64 splitMem 8 16 (by decide) (by decide) (by decide) (by decide)
    (by decide) (by decide)

/-! ### The coalescing pass on a tiled arena -/

theorem coalesceFrom_not_free (t s : Nat) (rest : List (Nat × Nat)) (ht : t ≠ HEAP_NODE_FREE) :
    coalesceFrom (t, s) rest = (t, s) :: coalesce rest := by
  cases rest with
  | nil => rfl
  | cons b rest =>
    rw [coalesceFrom, if_neg (fun h => ht h.1)]
    rfl

theorem coalesceFrom_run (ss : List Nat) :
    ∀ (s0 : Nat) (rest : List (Nat × Nat)),
      (∀ b ∈ rest.head?, b.1 ≠ HEAP_NODE_FREE) →
      coalesceFrom (HEAP_NODE_FREE, s0) (ss.map (fun s => (HEAP_NODE_FREE, s)) ++ rest)
        = (HEAP_NODE_FREE, s0 + ss.sum + NODE_SIZE * ss.length) :: coalesce rest := by
  induction ss with
  | nil =>
    intro s0 rest hrest
    cases rest with
    | nil => simp [coalesceFrom, coalesce]
    | cons b rest =>
      have hb : b.1 ≠ HEAP_NODE_FREE := hrest b (by simp)
      simp only [List.map_nil, List.nil_append, List.sum_nil, List.length_nil, Nat.mul_zero,
        Nat.add_zero]
      rw [coalesceFrom, if_neg (fun h => hb h.2)]
      rfl
  | cons s ss ih =>
    intro s0 rest hrest
    simp only [List.map_cons, List.cons_append, List.sum_cons, List.length_cons]
    rw [coalesceFrom, if_pos ⟨rfl, rfl⟩, ih _ rest hrest]
    congr 2
    simp only [NODE_SIZE]
    omega

theorem Blocks_congr (cap : Nat) (m m1 : Mem) (bs : List (Nat × Nat)) :
    ∀ o, (∀ i, o ≤ i → m1 i = m i) → Blocks cap m o bs → Blocks cap m1 o bs := by
  induction bs with
  | nil => intro o _ h; exact h
  | cons b rest ih =>
    intro o hagree h
    obtain ⟨h1, h2, h3, h4⟩ := h
    refine ⟨?_, ?_, h3, ih _ (fun i hi => hagree i (by omega)) h4⟩
    · rw [read32_congr m m1 o (fun i hi _ => hagree i hi)]; exact h1
    · rw [read32_congr m m1 (o + 4) (fun i hi _ => hagree i (by omega))]; exact h2

theorem Blocks_length (cap : Nat) (m : Mem) (bs : List (Nat × Nat)) :
    ∀ o, Blocks cap m o bs → o + NODE_SIZE * bs.length ≤ cap := by
  induction bs with
  | nil => intro o h; simp only [Blocks] at h; simp [h]
  | cons b rest ih =>
    intro o h
    obtain ⟨_, _, _, h4⟩ := h
    have := ih _ h4
    simp only [List.length_cons, NODE_SIZE] at this ⊢
    omega

theorem chainEnd_ge (cap : Nat) (m : Mem) (fuel : Nat) :
    ∀ o, o ≤ chainEnd cap m fuel o := by
  induction fuel with
  | zero => intro o; simp [chainEnd]
  | succ k ih =>
    intro o
    rw [chainEnd]
    split
    · have := ih (o + NODE_SIZE + read32 m (o + 4)); omega
    · exact Nat.le_refl _

theorem Blocks_of_chainEnd (cap : Nat) (m : Mem) (fuel : Nat) :
    ∀ o, chainEnd cap m fuel o = cap →
      Blocks cap m o ((headerChain cap m fuel o).map (headerAt m)) := by
  induction fuel with
  | zero => intro o h; simpa [chainEnd, headerChain, Blocks] using h
  | succ k ih =>
    intro o h
    rw [chainEnd] at h
    rw [headerChain]
    by_cases hin : o + NODE_SIZE ≤ cap
    · rw [if_pos hin] at h ⊢
      have hge := chainEnd_ge cap m k (o + NODE_SIZE + read32 m (o + 4))
      rw [h] at hge
      exact ⟨rfl, rfl, hge, ih _ h⟩
    · rw [if_neg hin] at h ⊢
      simpa [Blocks] using h

theorem chainEnd_of_Blocks (cap : Nat) (m : Mem) (bs : List (Nat × Nat)) :
    ∀ (fuel o : Nat), Blocks cap m o bs → bs.length ≤ fuel →
      chainEnd cap m fuel o = cap ∧ (headerChain cap m fuel o).map (headerAt m) = bs := by
  induction bs with
  | nil =>
    intro fuel o h _
    simp only [Blocks] at h
    subst h
    cases fuel with
    | zero => simp [chainEnd, headerChain]
    | succ k =>
      rw [chainEnd, headerChain, if_neg (by simp only [NODE_SIZE]; omega),
        if_neg (by simp only [NODE_SIZE]; omega)]
      simp
  | cons b rest ih =>
    intro fuel o h hlen
    obtain ⟨h1, h2, h3, h4⟩ := h
    obtain ⟨k, rfl⟩ : ∃ k, fuel = k + 1 := ⟨fuel - 1, by simp only [List.length_cons] at hlen; omega⟩
    have hin : o + NODE_SIZE ≤ cap := by omega
    rw [chainEnd, headerChain, if_pos hin, if_pos hin, h2]
    obtain ⟨e1, e2⟩ := ih k _ h4 (by simp only [List.length_cons] at hlen; omega)
    refine ⟨e1, ?_⟩
    simp only [List.map_cons, e2, headerAt, h1, h2]

theorem combinerStep_none (cap : Nat) (m : Mem) (p : Nat)
    (hN : Heap_Next_Node cap m p = .ok none) : combinerStep cap m p p = .ok none := by
  unfold combinerStep; rw [hN]

theorem combinerStep_merge (cap : Nat) (m : Mem) (p c : Nat)
    (hN : Heap_Next_Node cap m p = .ok (some c)) (hc : c + NODE_SIZE ≤ cap)
    (hp : read32 m p = HEAP_NODE_FREE) (hcf : read32 m c = HEAP_NODE_FREE) :
    combinerStep cap m p p =
      .ok (some (write32 m (p + 4) (u32 (read32 m (p + 4) + (read32 m (c + 4) + NODE_SIZE))), p)) := by
  have hb := Heap_Next_Node_some cap m p c hN
  simp only [NODE_SIZE] at hc hb
  unfold combinerStep
  rw [hN]
  simp only []
  rw [load32_ok _ _ _ (by omega), hp]
  simp only [if_true]
  rw [load32_ok _ _ _ (by omega), hcf]
  simp only [if_true]
  rw [load32_ok _ _ _ (by omega), load32_ok _ _ _ (by omega)]
  simp only []
  rw [store32_ok _ _ _ _ (by omega)]

theorem combinerStep_advance (cap : Nat) (m : Mem) (p c : Nat)
    (hN : Heap_Next_Node cap m p = .ok (some c))
    (hne : ¬ (read32 m p = HEAP_NODE_FREE ∧ read32 m c = HEAP_NODE_FREE)) :
    combinerStep cap m p p = .ok (some (m, c)) := by
  have hb := Heap_Next_Node_some cap m p c hN
  unfold combinerStep
  rw [hN]
  simp only []
  rw [load32_ok _ _ _ (by omega)]
  simp only []
  by_cases hp : read32 m p = HEAP_NODE_FREE
  · rw [if_pos hp, load32_ok _ _ _ (by omega)]
    simp only []
    rw [if_neg (fun hcf => hne ⟨hp, hcf⟩)]
  · rw [if_neg hp]

theorem Heap_Free_Combiner_loop_blocks (cap : Nat) (hcap : cap < 4294967296)
    (rest : List (Nat × Nat)) :
    ∀ (fuel : Nat) (m : Mem) (p : Nat) (b : Nat × Nat),
      Blocks cap m p (b :: rest) → rest.length < fuel →
      ∃ m1, Heap_Free_Combiner_loop cap fuel m p p = .ok m1
        ∧ Blocks cap m1 p (coalesceFrom b rest)
        ∧ ∀ i, i < p + 4 → m1 i = m i := by
  induction rest with
  | nil =>
    intro fuel m p b hB hfuel
    obtain ⟨k, rfl⟩ : ∃ k, fuel = k + 1 := ⟨fuel - 1, by omega⟩
    obtain ⟨h1, h2, h3, h4⟩ := hB
    simp only [Blocks] at h4
    have hN : Heap_Next_Node cap m p = .ok none := by
      rw [Heap_Next_Node_eq cap m p (by omega), if_neg]
      simp only [NODE_SIZE, MINIMUM_DATA_TYPE_SIZE] at h4 ⊢
      omega
    refine ⟨m, ?_, ⟨h1, h2, h3, h4⟩, fun _ _ => rfl⟩
    rw [Heap_Free_Combiner_loop_succ, combinerStep_none cap m p hN]
  | cons b2 rest ih =>
    intro fuel m p b hB hfuel
    obtain ⟨k, rfl⟩ : ∃ k, fuel = k + 1 :=
      ⟨fuel - 1, by simp only [List.length_cons] at hfuel; omega⟩
    have hk : rest.length < k := by simp only [List.length_cons] at hfuel; omega
    obtain ⟨h1, h2, h3, h4⟩ := hB
    have h4' := h4
    obtain ⟨g1, g2, g3, g4⟩ := h4
    simp only [NODE_SIZE] at h3 g3
    have hN : Heap_Next_Node cap m p = .ok (some (p + NODE_SIZE + b.2)) := by
      rw [Heap_Next_Node_eq cap m p (by simp only [NODE_SIZE]; omega), h2, if_pos]
      · simp only [NODE_SIZE]
        congr 2
        omega
      · simp only [NODE_SIZE, MINIMUM_DATA_TYPE_SIZE]
        omega
    rw [Heap_Free_Combiner_loop_succ]
    by_cases hboth : b.1 = HEAP_NODE_FREE ∧ b2.1 = HEAP_NODE_FREE
    · -- merge
      rw [combinerStep_merge cap m p _ hN (by simp only [NODE_SIZE]; omega)
        (h1.trans hboth.1) (g1.trans hboth.2)]
      simp only []
      rw [h2, g2]
      have hval : u32 (b.2 + (b2.2 + NODE_SIZE)) = b.2 + b2.2 + NODE_SIZE := by
        simp only [u32, NODE_SIZE]; omega
      rw [hval]
      have hB1 : Blocks cap (write32 m (p + 4) (b.2 + b2.2 + NODE_SIZE)) p
          ((HEAP_NODE_FREE, b.2 + b2.2 + NODE_SIZE) :: rest) := by
        refine ⟨?_, ?_, ?_, ?_⟩
        · rw [read32_write32_disj _ _ _ _ (by omega)]; exact h1.trans hboth.1
        · rw [read32_write32_same]; simp only [u32, NODE_SIZE]; omega
        · simp only [NODE_SIZE]; omega
        · have e : p + NODE_SIZE + (HEAP_NODE_FREE, b.2 + b2.2 + NODE_SIZE).2
              = p + NODE_SIZE + b.2 + NODE_SIZE + b2.2 := by
            simp only [NODE_SIZE]; omega
          rw [e]
          exact Blocks_congr cap m _ rest _
            (fun i hi => write32_frame _ _ _ _ (by simp only [NODE_SIZE] at hi; omega)) g4
      obtain ⟨m1, r1, r2, r3⟩ := ih k _ p _ hB1 hk
      refine ⟨m1, r1, ?_, ?_⟩
      · rw [coalesceFrom, if_pos hboth]; exact r2
      · intro i hi
        rw [r3 i hi, write32_frame _ _ _ _ (by omega)]
    · -- advance
      rw [combinerStep_advance cap m p _ hN (by rw [h1, g1]; exact hboth)]
      simp only []
      obtain ⟨m1, r1, r2, r3⟩ := ih k m _ b2 h4' hk
      refine ⟨m1, r1, ?_, ?_⟩
      · rw [coalesceFrom, if_neg hboth]
        refine ⟨?_, ?_, by simp only [NODE_SIZE]; omega, r2⟩
        · rw [read32_congr m m1 p (fun i _ hi => r3 i (by simp only [NODE_SIZE]; omega))]
          exact h1
        · rw [read32_congr m m1 (p + 4) (fun i _ hi => r3 i (by simp only [NODE_SIZE]; omega))]
          exact h2
      · intro i hi
        exact r3 i (by simp only [NODE_SIZE]; omega)

/-- C15 (single-pass merge).  For every arena with a buffer whose headers
tile it (capacity a positive `uint32_t`), a run of `Heap_Free_Combiner` with
at least as many iterations as there are blocks returns `true` and leaves an
arena whose headers tile the buffer again and whose block list is the
original one with every maximal run of adjacent FREE blocks replaced by one
FREE block at the place of the first (payload: the sum of the payloads plus
8 for every absorbed header, see `coalesceFrom_run`), every other block
unchanged (`coalesceFrom_not_free`). -/
theorem Heap_Free_Combiner_merges_runs (fuel : Nat) (h : Heap) (m : Mem)
    (hdata : h.data = some m) (hu32 : h.size < 4294967296) (hpos : 0 < h.size)
    (htiles : Tiles h.size m) (hfuel : (blocksOf h.size m).length ≤ fuel) :
    ∃ m1, Heap_Free_Combiner fuel h = .ok (true, { h with data := some m1 })
      ∧ Tiles h.size m1
      ∧ blocksOf h.size m1 = coalesce (blocksOf h.size m) := by
  have hB : Blocks h.size m 0 (blocksOf h.size m) :=
    Blocks_of_chainEnd h.size m (h.size + 1) 0 htiles
  cases hbs : blocksOf h.size m with
  | nil =>
    rw [hbs] at hB
    simp only [Blocks] at hB
    omega
  | cons b rest =>
    rw [hbs] at hB hfuel
    obtain ⟨m1, r1, r2, _⟩ := Heap_Free_Combiner_loop_blocks h.size hu32 rest fuel m 0 b hB
      (by simp only [List.length_cons] at hfuel; omega)
    have hlen := Blocks_length h.size m1 _ 0 r2
    obtain ⟨e1, e2⟩ := chainEnd_of_Blocks h.size m1 _ (h.size + 1) 0 r2
      (by simp only [NODE_SIZE] at hlen; omega)
    refine ⟨m1, ?_, e1, ?_⟩
    · unfold Heap_Free_Combiner
      simp only [hdata, r1]
    · unfold blocksOf chainOf
      rw [e2]
      rfl

/-- Witness of C15 on `runArena`: the run of three FREE blocks (payloads 4,
8 and 4) between two USED blocks becomes one FREE block of payload 32. -/
theorem Heap_Free_Combiner_merges_runs_witness :
    (∃ m1, Heap_Free_Combiner 5 runArena = .ok (true, { runArena with data := some m1 })
      ∧ Tiles runArena.size m1
      ∧ blocksOf runArena.size m1 = coalesce (blocksOf runArena.size runMem))
    ∧ coalesce (blocksOf runArena.size runMem)
        = [(HEAP_NODE_USED, 4), (HEAP_NODE_FREE, 32), (HEAP_NODE_USED, 4)] :=
  ⟨Heap_Free_Combiner_merges_runs 5 runArena runMem rfl (by decide) (by decide) (by decide)
    (by decide), by decide⟩

theorem zeroBytes_zeroMem (p n : Nat) : zeroBytes zeroMem p n = zeroMem := by
  funext i
  by_cases hi : p ≤ i ∧ i < p + n
  · rw [zeroBytes_inside _ _ _ _ hi.1 hi.2]; rfl
  · rw [zeroBytes_frame _ _ _ _ (by omega)]

theorem Heap_Init_big0 : Heap_Init bigCap none true (some zeroMem) true = .ok (some big0) := by
  rw [Heap_Init_eq_clear _ _ _ _ (by decide),
    Heap_Clear_ok (heapBeforeClear bigCap none (some zeroMem) true) zeroMem rfl (by decide)]
  simp only [heapBeforeClear, zeroBytes_zeroMem]
  rfl

set_option maxHeartbeats 4000000 in
set_option maxRecDepth 1000000 in
/-- C19, failing input.  On an arena of 2466885964 bytes: `Alloc(8)`,
`Alloc(2054323576)`, `Alloc(4)`, `Alloc(1100)`, `Alloc(24)`, `Dealloc` of the
last, `Alloc(20)`, `Alloc(412561208)` (pointer V = 2054324756), `Dealloc(8)`,
`Alloc(4)` (leftover 4, no split) and `Alloc(16)`.  Every call succeeds, V is
never deallocated, and the last call returns the odd pointer 2054324761,
whose 16 payload bytes and whose header `(USED, 16)` at 2054324753 lie
inside the payload of V. -/
theorem Heap_Alloc_overlaps_live_allocation :
    ∃ h1 h2 h3 h4 h5 h6 h7 h8 h9 h10 h11 m11,
      Heap_Init bigCap none true (some zeroMem) true = .ok (some big0)
      ∧ Heap_Alloc big0 8 = .ok (some 8, h1)
      ∧ Heap_Alloc h1 2054323576 = .ok (some 24, h2)
      ∧ Heap_Alloc h2 4 = .ok (some 2054323608, h3)
      ∧ Heap_Alloc h3 1100 = .ok (some 2054323620, h4)
      ∧ Heap_Alloc h4 24 = .ok (some 2054324728, h5)
      ∧ Heap_Dealloc 16 h5 2054324728 = .ok (true, h6)
      ∧ Heap_Alloc h6 20 = .ok (some 2054324728, h7)
      ∧ Heap_Alloc h7 412561208 = .ok (some 2054324756, h8)
      ∧ Heap_Dealloc 16 h8 8 = .ok (true, h9)
      ∧ Heap_Alloc h9 4 = .ok (some 8, h10)
      ∧ Heap_Alloc h10 16 = .ok (some 2054324761, h11)
      ∧ (2054324756 ≤ 2054324761 ∧ 2054324761 + 16 ≤ 2054324756 + 412561208)
      ∧ h11.data = some m11
      ∧ headerAt m11 (2054324761 - NODE_SIZE) = (HEAP_NODE_USED, 16)
      ∧ read32 m11 (2054324756 - NODE_SIZE) = HEAP_NODE_USED :=
  ⟨big1, big2, big3, big4, big5, big6, big7, big8, big9, big10, big11, memOf big11,
    Heap_Init_big0,
    result_eq _ _ _ (by decide!),
    result_eq _ _ _ (by decide!),
    result_eq _ _ _ (by decide!),
    result_eq _ _ _ (by decide!),
    result_eq _ _ _ (by decide!),
    result_eq _ _ _ (by decide!),
    result_eq _ _ _ (by decide!),
    result_eq _ _ _ (by decide!),
    result_eq _ _ _ (by decide!),
    result_eq _ _ _ (by decide!),
    result_eq _ _ _ (by decide!),
    by decide, memOf_eq _ (by decide!), by decide!, by decide!⟩

/-- Rounding of the capacity where `Heap_Init` completes: the stored
capacity is then the least multiple of 4 at or above the request.  For the
requests 4294967293 to 4294967295 `Heap_Init` does not complete in this
embedding (the rounded capacity wraps to 0), so they are not covered. -/
theorem Heap_Init_capacity_least_multiple (c : Nat) (description : Option (List Nat))
    (mallocHeap : Bool) (mallocData : Option Mem) (mallocDesc : Bool) (h : Heap)
    (hc32 : c < 4294967296)
    (hinit : Heap_Init c description mallocHeap mallocData mallocDesc = .ok (some h)) :
    h.size % MINIMUM_DATA_TYPE_SIZE = 0 ∧ c ≤ h.size
      ∧ ∀ k, k % MINIMUM_DATA_TYPE_SIZE = 0 → c ≤ k → h.size ≤ k := by
  by_cases hmax : c ≤ 4294967292
  · rw [Heap_Init_capacity_rounded c description mallocHeap mallocData mallocDesc h hmax hinit]
    exact ALIGNED_32_BIT_least c
  · exfalso
    have hmin : ¬ c < MINIMUM_DATA_SIZE := by
      simp only [MINIMUM_DATA_SIZE, NODE_SIZE, MINIMUM_DATA_TYPE_SIZE]; omega
    have h0 : u32 (ALIGNED_32_BIT c) = 0 := by
      simp only [u32, ALIGNED_32_BIT, MINIMUM_DATA_TYPE_SIZE]; omega
    cases mallocHeap with
    | false => simp [Heap_Init, hmin] at hinit
    | true =>
      rw [Heap_Init_eq_clear _ _ _ _ hmin] at hinit
      cases hd : mallocData with
      | none => rw [hd] at hinit; simp [Heap_Clear, heapBeforeClear] at hinit
      | some raw =>
        rw [hd] at hinit
        simp [Heap_Clear, heapBeforeClear, store32, h0] at hinit

/-- Example: `Heap_Init(1022)` stores the capacity 1024. -/
theorem Heap_Init_capacity_least_multiple_witness :
    (initHeap (Heap_Init 1022 none true (some rawMem) true)).size % MINIMUM_DATA_TYPE_SIZE = 0
      ∧ 1022 ≤ (initHeap (Heap_Init 1022 none true (some rawMem) true)).size
      ∧ ∀ k, k % MINIMUM_DATA_TYPE_SIZE = 0 → 1022 ≤ k →
          (initHeap (Heap_Init 1022 none true (some rawMem) true)).size ≤ k :=
  Heap_Init_capacity_least_multiple 1022 none true (some rawMem) true
    (initHeap (Heap_Init 1022 none true (some rawMem) true)) (by decide)
    (init_eq _ (by decide!))

/-- C3, failing input.  `Heap_Init(64)`, `Alloc(12) = 8`, `Alloc(4) = 28`,
`Dealloc(8)`, `Alloc(8) = 8` (leftover 4, no split): the arena then holds the
block `(FREE, 24)` at offset 32, created by `Heap_Use_Node`, yet `Heap_Alloc`
for 4 bytes returns `NULL` and leaves the arena as it is.  The scan reads the
4 dropped bytes at offset 16 as a header, takes the tag of the block at 20
for its size and leaves the arena: the chain from offset 0 is `[0, 16]`. -/
theorem Heap_Alloc_misses_free_block :
    ∃ h0 h1 h2 h3 h4 m4, Heap_Init 64 none true (some rawMem) true = .ok (some h0)
      ∧ Heap_Alloc h0 12 = .ok (some 8, h1)
      ∧ Heap_Alloc h1 4 = .ok (some 28, h2)
      ∧ Heap_Dealloc 64 h2 8 = .ok (true, h3)
      ∧ Heap_Alloc h3 8 = .ok (some 8, h4)
      ∧ h4.size = 64 ∧ h4.data = some m4
      ∧ headerAt m4 32 = (HEAP_NODE_FREE, 24)
      ∧ 32 + NODE_SIZE + 24 = 64
      ∧ (0 < u32 (ALIGNED_32_BIT 4) ∧ u32 (ALIGNED_32_BIT 4) ≤ 24)
      ∧ chainOf 64 m4 = [0, 16]
      ∧ headerAt m4 16 = (0, HEAP_NODE_USED)
      ∧ Heap_Alloc h4 4 = .ok (none, h4) :=
  ⟨_, _, _, _, _, _, rfl, rfl, rfl, rfl, rfl, rfl, rfl, by decide, by decide, by decide,
    by decide, by decide, rfl⟩

end TypeAllocator
